import Mathlib

/-!
Shallow embedding of the `tevpg/colormap` repository core
(`src/data_colors.py`, with the divergent revision `src/colors.py`
embedded separately in the `ColorsPy` namespace where a claim refers to it).

Modelling conventions:
* Python floats are modelled as real numbers (`ℝ`); the luminance
  coefficients `0.299`, `0.587`, `0.114` are modelled as the exact rationals
  they denote (`ℚ`), since `Color` channels are integers.
* Python `int` channels are modelled as `ℤ`; `int(x)` truncation toward
  zero is `pyTrunc`.
* Python exceptions become `Except Err`; each `Err` constructor is noted at
  the source line whose `raise` it models.  `pyTypeError`, `pyIndexError`
  and `pyUnboundLocal` model the corresponding Python runtime errors that
  are not explicit `raise` statements in the source.
* `hash(str(self.unload()))` in `ColorFactory._get_hash` is modelled as the
  `unload()` structure itself, i.e. as a collision-free fingerprint of the
  configuration; the `unload()` structure is embedded faithfully
  (blend method, then per dimension its exponent and the `(determiner,
  html_color)` pairs of its config points).
* `functools.lru_cache(maxsize=100)` is modelled as an unbounded
  association list: LRU eviction only removes entries and thus never
  changes which value a cache hit returns.
-/

/-- Error kinds raised by the embedded code (Python `ValueError` /
`TypeError` / `IndexError` / `UnboundLocalError`), named after the spec's
error vocabulary where one exists. -/
inductive Err where
  | invalidColor
  | invalidConfigPoint
  | invalidExponent
  | notReady
  | arityMismatch
  | emptyInput
  | unknownBlendMethod
  | degenerateGradient
  | pyTypeError
  | pyIndexError
  | pyUnboundLocal
  | badDimension
deriving DecidableEq, Repr

/-- Python `int()` truncation toward zero of a real number. -/
noncomputable def pyTrunc (x : ℝ) : ℤ := if 0 ≤ x then ⌊x⌋ else -⌊-x⌋

/-- `data_colors.py` `Color`: an RGB triple.  The Python class subclasses
`tuple`; channel access `self[0]/[1]/[2]` becomes the three fields. -/
structure Color where
  red : ℤ
  green : ℤ
  blue : ℤ
deriving DecidableEq, Repr

/-- The well-formedness enforced by `Color._validate_rgb_tuple`
(`data_colors.py` lines 157-170): all three channels lie in `[0, 255]`. -/
def Color.valid (c : Color) : Prop :=
  0 ≤ c.red ∧ c.red ≤ 255 ∧ 0 ≤ c.green ∧ c.green ≤ 255 ∧
    0 ≤ c.blue ∧ c.blue ≤ 255

instance (c : Color) : Decidable c.valid := by
  unfold Color.valid; infer_instance

/-- `Color.__new__` applied to an RGB tuple: `_validate_rgb_tuple` raises
`ValueError` ("All elements in the color tuple must be 0 to 255") unless
every channel is in range (`data_colors.py` lines 157-170). -/
def Color.ofRGB (r g b : ℤ) : Except Err Color :=
  if (Color.mk r g b).valid then .ok ⟨r, g, b⟩ else .error .invalidColor

/-- Uppercase hexadecimal digit character, as produced by Python `"%X"`. -/
def hexDigitChar (n : ℕ) : Char :=
  if n < 10 then Char.ofNat (48 + n) else Char.ofNat (55 + n)

/-- Hexadecimal digit expansion, fuel-indexed so that it is structurally
recursive (`natHexDigits` supplies fuel `n + 1`, which always suffices
because each step divides by 16). -/
def natHexAux (fuel : ℕ) (n : ℕ) : List Char :=
  match fuel with
  | 0 => []
  | fuel' + 1 =>
    if n < 16 then [hexDigitChar n]
    else natHexAux fuel' (n / 16) ++ [hexDigitChar (n % 16)]

/-- Hexadecimal digit expansion of a natural number (most significant
first), as produced by Python `"%X"` formatting. -/
def natHexDigits (n : ℕ) : List Char := natHexAux (n + 1) n

/-- Zero-padding to width 2, as in Python `"%02X"`. -/
def pad02 (l : List Char) : List Char := if l.length < 2 then '0' :: l else l

/-- Python `f"{z:02X}"` for an integer channel value. -/
def intHex02 (z : ℤ) : List Char :=
  if z < 0 then '-' :: natHexDigits (-z).toNat else pad02 (natHexDigits z.toNat)

/-- `Color.html_color` (`data_colors.py` lines 177-180):
`f"#{red:02X}{green:02X}{blue:02X}"`. -/
def Color.html_color (c : Color) : List Char :=
  '#' :: (intHex02 c.red ++ intHex02 c.green ++ intHex02 c.blue)

/-- Decimal digit character. -/
def decDigitChar (n : ℕ) : Char := Char.ofNat (48 + n)

/-- Decimal digit expansion, fuel-indexed for structural recursion
(`natDecDigits` supplies fuel `n + 1`, which always suffices because each
step divides by 10). -/
def natDecAux (fuel : ℕ) (n : ℕ) : List Char :=
  match fuel with
  | 0 => []
  | fuel' + 1 =>
    if n < 10 then [decDigitChar n]
    else natDecAux fuel' (n / 10) ++ [decDigitChar (n % 10)]

/-- Decimal digit expansion of a natural number (most significant first),
as produced by Python `str()` on an `int`. -/
def natDecDigits (n : ℕ) : List Char := natDecAux (n + 1) n

/-- Python `str()` of an integer. -/
def intDec (z : ℤ) : List Char :=
  if z < 0 then '-' :: natDecDigits (-z).toNat else natDecDigits z.toNat

/-- `Color.__str__` (`data_colors.py` lines 196-201):
`f"rgb({red},{green},{blue})"`. -/
def Color.str (c : Color) : List Char :=
  "rgb(".data ++ intDec c.red ++ [','] ++ intDec c.green ++ [','] ++
    intDec c.blue ++ [')']

/-- `Color.luminance` (`data_colors.py` lines 182-185):
`0.299*red + 0.587*green + 0.114*blue`, with the float coefficients
modelled as exact rationals. -/
def Color.luminance (c : Color) : ℚ :=
  299 / 1000 * (c.red : ℚ) + 587 / 1000 * (c.green : ℚ) + 114 / 1000 * (c.blue : ℚ)

/-- `Color.css_fg_bg` (`data_colors.py` lines 191-194): foreground is
`black` when `luminance() >= 0.5`, else `white` (note: the threshold the
source actually uses is `0.5`, not `0.5 * 255`). -/
def Color.css_fg_bg (c : Color) : List Char :=
  "color:".data ++
    (if 1 / 2 ≤ c.luminance then "black".data else "white".data) ++
    ";background-color:".data ++ c.html_color ++ [';']

/-- Python `\s` whitespace class (space, tab, newline, return, vertical
tab, form feed), used by `str.strip` and the `rgb(...)` regex. -/
def pyIsSpace (c : Char) : Bool :=
  c == ' ' || c == '\t' || c == '\n' || c == '\r' ||
    c == Char.ofNat 11 || c == Char.ofNat 12

/-- Python `str.strip()`. -/
def pyStrip (l : List Char) : List Char :=
  ((l.dropWhile pyIsSpace).reverse.dropWhile pyIsSpace).reverse

/-- Python `str.lower()` (ASCII fragment, sufficient for the inputs the
repository produces). -/
def pyLower (l : List Char) : List Char := l.map Char.toLower

/-- Value of one hexadecimal digit character, both cases, as accepted by
Python `int(s, 16)`. -/
def hexVal (c : Char) : Option ℕ :=
  if '0' ≤ c ∧ c ≤ '9' then some (c.toNat - 48)
  else if 'a' ≤ c ∧ c ≤ 'f' then some (c.toNat - 87)
  else if 'A' ≤ c ∧ c ≤ 'F' then some (c.toNat - 55)
  else none

/-- Python `int(s, 16)` on a slice of at most two characters (as taken by
`Color._parse_html_str`); the empty slice raises `ValueError`.  Sign marks
and surrounding whitespace, which `int` would also accept, are not
modelled: no string the repository produces contains them. -/
def hexSliceVal : List Char → Option ℕ
  | [c] => hexVal c
  | [c₁, c₂] =>
    match hexVal c₁, hexVal c₂ with
    | some a, some b => some (16 * a + b)
    | _, _ => none
  | _ => none

/-- `Color._parse_html_str` (`data_colors.py` lines 132-145): parse
`s[1:3]`, `s[3:5]`, `s[5:7]` as base-16 integers, then the constructor
validates the triple. -/
def parseHtml (l : List Char) : Except Err Color :=
  match hexSliceVal ((l.drop 1).take 2), hexSliceVal ((l.drop 3).take 2),
      hexSliceVal ((l.drop 5).take 2) with
  | some r, some g, some b => Color.ofRGB r g b
  | _, _, _ => .error .invalidColor

/-- Numeric value of a maximal run of decimal digits. -/
def digitsVal (l : List Char) : ℕ :=
  l.foldl (fun a c => 10 * a + (c.toNat - 48)) 0

/-- Consume a maximal nonempty run of decimal digits (the `(\d+)` groups of
the `rgb` regular expression). -/
def takeNat (l : List Char) : Option (ℕ × List Char) :=
  let ds := l.takeWhile Char.isDigit
  if ds.isEmpty then none
  else some (digitsVal ds, l.dropWhile Char.isDigit)

/-- Consume `\s*`. -/
def skipSp (l : List Char) : List Char := l.dropWhile pyIsSpace

/-- Consume one expected literal character. -/
def expectChar (c : Char) : List Char → Option (List Char)
  | x :: rest => if x = c then some rest else none
  | [] => none

/-- `Color._parse_rgb_str` (`data_colors.py` lines 147-155): match the
anchored regular expression
`rgb\s*\(\s*(\d+)\s*,\s*(\d+)\s*,\s*(\d+)\s*\)` (trailing characters are
permitted, as with `re.match`), then `_validate_rgb_tuple` checks the
range. -/
def parseRgb (l : List Char) : Except Err Color :=
  match (do
    let r1 ← expectChar 'r' l
    let r2 ← expectChar 'g' r1
    let r3 ← expectChar 'b' r2
    let r4 ← expectChar '(' (skipSp r3)
    let (a, r5) ← takeNat (skipSp r4)
    let r6 ← expectChar ',' (skipSp r5)
    let (b, r7) ← takeNat (skipSp r6)
    let r8 ← expectChar ',' (skipSp r7)
    let (c, r9) ← takeNat (skipSp r8)
    let _ ← expectChar ')' (skipSp r9)
    pure ((a : ℤ), (b : ℤ), (c : ℤ)) : Option (ℤ × ℤ × ℤ)) with
  | none => .error .invalidColor
  | some (a, b, c) => Color.ofRGB a b c

/-- List-prefix test (avoiding library helpers so the definition is plainly
`str.startswith`). -/
def startsWithSeq : List Char → List Char → Bool
  | [], _ => true
  | _ :: _, [] => false
  | p :: ps, x :: xs => p == x && startsWithSeq ps xs

/-- The three shapes a `Color.__new__` initialiser can have in the
repository: an existing `Color`, an integer tuple, or a string. -/
inductive ColorInit where
  | fromColor (c : Color)
  | fromTuple (t : List ℤ)
  | fromStr (s : List Char)

/-- `Color.__new__` (`data_colors.py` lines 70-104).  `names` is the
external `COLOR_NAMES` table (the `color_names` module is not part of this
repository), passed as a parameter. -/
def Color.new (names : List Char → Option (ℤ × ℤ × ℤ)) :
    ColorInit → Except Err Color
  | .fromColor c => .ok c
  | .fromTuple t =>
    match t with
    | [r, g, b] => Color.ofRGB r g b
    | _ => .error .invalidColor
  | .fromStr s =>
    let t := pyLower (pyStrip s)
    if startsWithSeq "rgb(".data t then parseRgb t
    else if startsWithSeq ['#'] t then parseHtml t
    else
      match names t with
      | some (r, g, b) => Color.ofRGB r g b
      | none => .error .invalidColor

/-- Blend-method name constants (`data_colors.py` lines 52-58); note
`ALPHA_BLEND = LERP_BLEND = "lerp"`. -/
def LERP_BLEND : String := "lerp"

/-- `ALPHA_BLEND` is an alias of `LERP_BLEND`. -/
def ALPHA_BLEND : String := LERP_BLEND

/-- `ADDITIVE_BLEND`. -/
def ADDITIVE_BLEND : String := "additive"

/-- `SUBTRACTIVE_BLEND`. -/
def SUBTRACTIVE_BLEND : String := "subtractive"

/-- `DIFFERENCE_BLEND`. -/
def DIFFERENCE_BLEND : String := "difference"

/-- `MULTIPLICATIVE_BLEND`. -/
def MULTIPLICATIVE_BLEND : String := "multiplicative"

/-- `OVERLAY_BLEND`. -/
def OVERLAY_BLEND : String := "overlay"

/-- `Color.blend_lerp` (`data_colors.py` lines 289-314): clamp `alpha` to
`[0,1]`, then per channel `int(base + (blend - base) * alpha)`, and build
a `Color` (which validates the channels). -/
noncomputable def Color.blend_lerp (base_color blend_color : Color)
    (alpha : ℝ) : Except Err Color :=
  Color.ofRGB
    (pyTrunc ((base_color.red : ℝ) +
      ((blend_color.red : ℝ) - (base_color.red : ℝ)) * max 0 (min 1 alpha)))
    (pyTrunc ((base_color.green : ℝ) +
      ((blend_color.green : ℝ) - (base_color.green : ℝ)) * max 0 (min 1 alpha)))
    (pyTrunc ((base_color.blue : ℝ) +
      ((blend_color.blue : ℝ) - (base_color.blue : ℝ)) * max 0 (min 1 alpha)))

/-- `Color._blend_additive` (`data_colors.py` lines 316-324). -/
def Color.blend_additive (base_color blend_color : Color) : Except Err Color :=
  Color.ofRGB (min 255 (base_color.red + blend_color.red))
    (min 255 (base_color.green + blend_color.green))
    (min 255 (base_color.blue + blend_color.blue))

/-- `Color._blend_subtractive` (`data_colors.py` lines 326-336):
per channel `max(0, base - blend)`. -/
def Color.blend_subtractive (base_color blend_color : Color) : Except Err Color :=
  Color.ofRGB (max 0 (base_color.red - blend_color.red))
    (max 0 (base_color.green - blend_color.green))
    (max 0 (base_color.blue - blend_color.blue))

/-- `Color._blend_difference` (`data_colors.py` lines 338-348):
per channel `abs(base - blend)`. -/
def Color.blend_difference (base_color blend_color : Color) : Except Err Color :=
  Color.ofRGB |base_color.red - blend_color.red|
    |base_color.green - blend_color.green|
    |base_color.blue - blend_color.blue|

/-- `Color._blend_multiply` (`data_colors.py` lines 350-358):
per channel `(base * blend) // 255`. -/
def Color.blend_multiply (base_color blend_color : Color) : Except Err Color :=
  Color.ofRGB (base_color.red * blend_color.red / 255)
    (base_color.green * blend_color.green / 255)
    (base_color.blue * blend_color.blue / 255)

/-- One channel of `Color._blend_overlay` (`data_colors.py` lines 360-375). -/
def overlayChannel (base blend : ℤ) : ℤ :=
  if base ≤ 127 then 2 * base * blend / 255
  else 255 - 2 * (255 - base) * (255 - blend) / 255

/-- `Color._blend_overlay` (`data_colors.py` lines 360-375). -/
def Color.blend_overlay (base_color blend_color : Color) : Except Err Color :=
  Color.ofRGB (overlayChannel base_color.red blend_color.red)
    (overlayChannel base_color.green blend_color.green)
    (overlayChannel base_color.blue blend_color.blue)

/-- The two-color dispatch at the bottom of `Color.blend`
(`data_colors.py` lines 270-287); an unknown method name raises
`ValueError("Invalid blend method: ...")`. -/
noncomputable def Color.blendPair (blend_method : String)
    (color1 color2 : Color) : Except Err Color :=
  if blend_method = LERP_BLEND ∨ blend_method = ALPHA_BLEND then
    Color.blend_lerp color1 color2 (1 / 2)
  else if blend_method = ADDITIVE_BLEND then Color.blend_additive color1 color2
  else if blend_method = SUBTRACTIVE_BLEND then Color.blend_subtractive color1 color2
  else if blend_method = DIFFERENCE_BLEND then Color.blend_difference color1 color2
  else if blend_method = MULTIPLICATIVE_BLEND then Color.blend_multiply color1 color2
  else if blend_method = OVERLAY_BLEND then Color.blend_overlay color1 color2
  else .error .unknownBlendMethod

/-- `Color.blend` (`data_colors.py` lines 255-287): empty list raises
`ValueError("The list of colors must not be empty.")`; a singleton is
returned unchanged; otherwise the first two colors are repeatedly replaced
by their two-color blend until one remains. -/
noncomputable def Color.blend : List Color → String → Except Err Color
  | [], _ => .error .emptyInput
  | [c], _ => .ok c
  | c₁ :: c₂ :: rest, blend_method =>
    match Color.blendPair blend_method c₁ c₂ with
    | .error e => .error e
    | .ok r => Color.blend (r :: rest) blend_method
termination_by l _ => l.length
decreasing_by simp

/-- The six valid blend-method identifiers. -/
def validBlendMethods : List String :=
  [LERP_BLEND, ADDITIVE_BLEND, SUBTRACTIVE_BLEND, DIFFERENCE_BLEND,
    MULTIPLICATIVE_BLEND, OVERLAY_BLEND]

namespace ColorsPy

/-- `colors.py` `RGBTuple`: the older revision works on bare integer
triples. -/
abbrev RGBTuple := ℤ × ℤ × ℤ

/-- `Color._clamp` (`colors.py` lines 431-434). -/
def clamp (t : RGBTuple) : RGBTuple :=
  (max 0 (min 255 t.1), max 0 (min 255 t.2.1), max 0 (min 255 t.2.2))

/-- `Color._blend_additive` (`colors.py` lines 364-374). -/
def blend_additive (base_color blend_color : RGBTuple) : RGBTuple :=
  clamp (min 255 (base_color.1 + blend_color.1),
    min 255 (base_color.2.1 + blend_color.2.1),
    min 255 (base_color.2.2 + blend_color.2.2))

/-- `Color._blend_subtractive` (`colors.py` lines 376-386). -/
def blend_subtractive (base_color blend_color : RGBTuple) : RGBTuple :=
  clamp (max 0 (base_color.1 - blend_color.1),
    max 0 (base_color.2.1 - blend_color.2.1),
    max 0 (base_color.2.2 - blend_color.2.2))

/-- `Color._blend_difference` (`colors.py` lines 388-398); defined in the
source but never reached by the dispatch in `Color.blend`. -/
def blend_difference (base_color blend_color : RGBTuple) : RGBTuple :=
  clamp (|base_color.1 - blend_color.1|,
    |base_color.2.1 - blend_color.2.1|,
    |base_color.2.2 - blend_color.2.2|)

/-- `Color._blend_multiply` (`colors.py` lines 400-410). -/
def blend_multiply (base_color blend_color : RGBTuple) : RGBTuple :=
  clamp (base_color.1 * blend_color.1 / 255,
    base_color.2.1 * blend_color.2.1 / 255,
    base_color.2.2 * blend_color.2.2 / 255)

/-- One channel of `Color._blend_overlay` (`colors.py` lines 412-429). -/
def overlayChannel (base blend : ℤ) : ℤ :=
  if base ≤ 127 then 2 * base * blend / 255
  else 255 - 2 * (255 - base) * (255 - blend) / 255

/-- `Color._blend_overlay` (`colors.py` lines 412-429). -/
def blend_overlay (base_color blend_color : RGBTuple) : RGBTuple :=
  clamp (overlayChannel base_color.1 blend_color.1,
    overlayChannel base_color.2.1 blend_color.2.1,
    overlayChannel base_color.2.2 blend_color.2.2)

/-- The dispatch of one loop iteration of `Color.blend`
(`colors.py` lines 335-349).  The `"difference"` branch (lines 342-343)
calls `Color._blend_subtractive`, not `Color._blend_difference`.
The `"alpha"` branch calls `_blend_alpha`, which reads `blend_color[3]`
and therefore raises `IndexError` on a 3-tuple. -/
def blendStep (blend_method : String) (result color : RGBTuple) :
    Except Err RGBTuple :=
  if blend_method = "alpha" then .error .pyIndexError
  else if blend_method = "additive" then .ok (blend_additive result color)
  else if blend_method = "subtractive" then .ok (blend_subtractive result color)
  else if blend_method = "difference" then .ok (blend_subtractive result color)
  else if blend_method = "multiplicative" then .ok (blend_multiply result color)
  else if blend_method = "overlay" then .ok (blend_overlay result color)
  else .error .unknownBlendMethod

/-- `Color.blend` (`colors.py` lines 325-351): empty list raises; a
singleton is returned unchanged; otherwise fold `blendStep` over the whole
list starting from `result = (0, 0, 0)`. -/
def blend (colors : List RGBTuple) (blend_method : String) :
    Except Err RGBTuple :=
  match colors with
  | [] => .error .emptyInput
  | [c] => .ok c
  | _ => colors.foldlM (blendStep blend_method) (0, 0, 0)

end ColorsPy

/-- `ConfigPoint` (`data_colors.py` lines 378-397): a determiner value
(Python float, modelled as `ℝ`) carrying a `Color`.  The Python class
subclasses `float`; `.real` is the determiner. -/
structure ConfigPoint where
  determiner : ℝ
  color : Color

/-- Two config points are equal iff value and color agree
(`ConfigPoint.__eq__`). -/
theorem ConfigPoint.ext_iff' (a b : ConfigPoint) :
    a = b ↔ a.determiner = b.determiner ∧ a.color = b.color := by
  constructor
  · rintro rfl; exact ⟨rfl, rfl⟩
  · rintro ⟨h₁, h₂⟩; cases a; cases b; simp_all

/-- Ordering used by `self.configs.sort()`: `ConfigPoint` subclasses
`float`, so sorting compares determiners. -/
def cpLE (a b : ConfigPoint) : Prop := a.determiner ≤ b.determiner

noncomputable instance : DecidableRel cpLE :=
  fun a b => Real.decidableLE a.determiner b.determiner

instance : IsTotal ConfigPoint cpLE := ⟨fun _ _ => le_total _ _⟩

instance : IsTrans ConfigPoint cpLE := ⟨fun _ _ _ h h' => le_trans h h'⟩

/-- Strictly-ascending-by-determiner predicate for a config list; this is
the invariant `add_config` maintains (sorted, pairwise-distinct
determiners). -/
def cpSorted (l : List ConfigPoint) : Prop :=
  l.Pairwise fun a b => a.determiner < b.determiner

/-- The determiners of a config list. -/
def detList (l : List ConfigPoint) : List ℝ := l.map (·.determiner)

/-- Python `min` over a nonempty list (`float(min(self.configs))`);
`none` models the `TypeError` on an empty list, which cannot occur at the
call site. -/
noncomputable def pyMin : List ℝ → Option ℝ
  | [] => none
  | x :: xs => some (xs.foldl min x)

/-- Python `max` over a nonempty list (`float(max(self.configs))`). -/
noncomputable def pyMax : List ℝ → Option ℝ
  | [] => none
  | x :: xs => some (xs.foldl max x)

/-- `self.range = self.max - self.min` (`data_colors.py` line 465),
propagating the `None` sentinel of an unconfigured dimension. -/
def mkRange (mx mn : Option ℝ) : Option ℝ :=
  match mx, mn with
  | some a, some b => some (a - b)
  | _, _ => none

/-- `Dimension` (`data_colors.py` lines 421-450): interpolation exponent,
config list, and the mutable attributes set in `__init__`/`add_config`.
The Python attributes `min`/`max`/`range` are named `dmin`/`dmax`/`drange`
here (`min`/`max` collide with the Lean library); `None` becomes
`Option.none`. -/
structure Dimension where
  interpolation_exponent : ℝ
  configs : List ConfigPoint
  ready : Bool
  dmin : Option ℝ
  dmax : Option ℝ
  drange : Option ℝ

/-- The freshly initialised dimension produced by `Dimension.__init__`
(`data_colors.py` lines 441-450) once the exponent check has passed. -/
def Dimension.init (interpolation_exponent : ℝ) : Dimension :=
  ⟨interpolation_exponent, [], false, none, none, none⟩

/-- `Dimension.add_config` (`data_colors.py` lines 452-466): construct the
`ConfigPoint` (whose `Color(color)` call validates the color), reject a
duplicate determiner with `ValueError("ConfigPoint with determiner ...
already exists")`, otherwise append, sort, and recompute
`min`/`max`/`range`/`ready`.  Python's stable `list.sort()` is modelled by
the (stable) insertion sort on the appended list. -/
noncomputable def Dimension.add_config (dim : Dimension) (determiner : ℝ)
    (color : Color) : Except Err Unit × Dimension :=
  if ¬ color.valid then (.error .invalidColor, dim)
  else if determiner ∈ detList dim.configs then (.error .invalidConfigPoint, dim)
  else
    let cfgs := List.insertionSort cpLE (dim.configs ++ [⟨determiner, color⟩])
    let mn := pyMin (detList cfgs)
    let mx := pyMax (detList cfgs)
    (.ok (), { dim with
                configs := cfgs
                dmin := mn
                dmax := mx
                drange := mkRange mx mn
                ready := true })

/-- The bracket scan of `Dimension.get_color` (`data_colors.py` lines
481-486): the first adjacent pair whose upper determiner is `≥` the
adjusted value; `none` models falling through the loop without a `break`
(which leaves `gradient_min` unbound). -/
noncomputable def findBracket (x : ℝ) :
    List ConfigPoint → Option (ConfigPoint × ConfigPoint)
  | c₁ :: c₂ :: rest =>
    if x ≤ c₂.determiner then some (c₁, c₂) else findBracket x (c₂ :: rest)
  | _ => none

/-- `Dimension.get_color` (`data_colors.py` lines 468-497).  `pyTypeError`
models the comparison of the `None` sentinel; `pyIndexError` models
`self.configs[0]` on an empty list; `pyUnboundLocal` models the use of
`gradient_min` when the scan loop never hit its `break`. -/
noncomputable def Dimension.get_color (dim : Dimension) (determiner : ℝ) :
    Except Err Color :=
  match dim.drange with
  | none => .error .pyTypeError
  | some rng =>
    if rng ≤ 0 then
      match dim.configs with
      | [] => .error .pyIndexError
      | c :: _ => .ok c.color
    else
      match dim.dmin, dim.dmax with
      | some mn, some mx =>
        let d := max mn (min mx determiner)
        let determiner_range := d - mn
        let adjusted := mn + Real.rpow determiner_range dim.interpolation_exponent *
          Real.rpow rng (1 - dim.interpolation_exponent)
        match findBracket adjusted dim.configs with
        | none => .error .pyUnboundLocal
        | some (lo, hi) =>
          if lo.determiner = hi.determiner then .error .degenerateGradient
          else Color.blend_lerp lo.color hi.color
            ((adjusted - lo.determiner) / (hi.determiner - lo.determiner))
      | _, _ => .error .pyTypeError

/-- Well-formedness of a `Dimension`: exactly the relationships that hold
for every dimension reachable through `Dimension.init` /
`Dimension.add_config` — configs strictly sorted by determiner with valid
colors, and `ready`/`min`/`max`/`range` coherent with the config list. -/
def DimWF (d : Dimension) : Prop :=
  cpSorted d.configs ∧
  (∀ cp ∈ d.configs, cp.color.valid) ∧
  d.ready = !d.configs.isEmpty ∧
  d.dmin = pyMin (detList d.configs) ∧
  d.dmax = pyMax (detList d.configs) ∧
  d.drange = mkRange (pyMax (detList d.configs)) (pyMin (detList d.configs))

/-- The configuration part of a `ColorFactory` (`data_colors.py` lines
540-547): blend method and dimension list.  The cache bookkeeping lives in
`FactoryState`. -/
structure Config where
  blend_method : String
  dimensions : List Dimension

/-- The type of `ColorFactory.unload()` output: blend method, then per
dimension its exponent and `(determiner, html_color)` pairs. -/
abbrev Unload := String × List (ℝ × List (ℝ × List Char))

/-- `ColorFactory.unload` (`data_colors.py` lines 612-635). -/
def ColorFactory.unload (f : Config) : Unload :=
  (f.blend_method, f.dimensions.map fun d =>
    (d.interpolation_exponent, d.configs.map fun cp =>
      (cp.determiner, cp.color.html_color)))

/-- `ColorFactory.ready` (`data_colors.py` lines 592-597):
`all(d.ready for d in self.dimensions) if self.dimensions else False`. -/
def factoryReady (f : Config) : Bool :=
  if f.dimensions.isEmpty then false else f.dimensions.all (·.ready)

/-- `ColorFactory._cached_get_color` without the cache (`data_colors.py`
lines 567-585): check readiness and arity, get each dimension's color for
its positional component, and blend. -/
noncomputable def computeUncached (f : Config) (t : List ℝ) : Except Err Color :=
  if factoryReady f = false then .error .notReady
  else if t.length ≠ f.dimensions.length then .error .arityMismatch
  else
    match (f.dimensions.zip t).mapM fun p => p.1.get_color p.2 with
    | .error e => .error e
    | .ok colors => Color.blend colors f.blend_method

/-- Full `ColorFactory` state: configuration plus the `lru_cache` contents
and the `_config_hash` stored at the last query.  The hash is modelled as
the `unload()` fingerprint itself (`none` models the initial sentinel
`0`). -/
structure FactoryState where
  cfg : Config
  cache : List (List ℝ × Color)
  chash : Option Unload

/-- `ColorFactory.__init__` (`data_colors.py` lines 543-547). -/
def ColorFactory.init (blend_method : String) : FactoryState :=
  ⟨⟨blend_method, []⟩, [], none⟩

/-- `ColorFactory.add_dimension` (`data_colors.py` lines 549-553) together
with the exponent check of `Dimension.__init__` (lines 441-445, raising
`ValueError("Interpolation exponent must be >= 0.")`).  Returns the index
of the new dimension as the handle the caller gets. -/
noncomputable def ColorFactory.add_dimension (e : ℝ) (s : FactoryState) :
    Except Err ℕ × FactoryState :=
  if e < 0 then (.error .invalidExponent, s)
  else
    (.ok s.cfg.dimensions.length,
      { s with cfg := { s.cfg with
          dimensions := s.cfg.dimensions ++ [Dimension.init e] } })

/-- Mutation of one contained dimension through the handle returned by
`add_dimension` (callers invoke `d.add_config(...)` on the returned
`Dimension` object; here the handle is the index).  `badDimension` is
unreachable for handles actually produced by `add_dimension`. -/
noncomputable def ColorFactory.add_config (i : ℕ) (d : ℝ) (c : Color)
    (s : FactoryState) : Except Err Unit × FactoryState :=
  match s.cfg.dimensions[i]? with
  | none => (.error .badDimension, s)
  | some dim =>
    match dim.add_config d c with
    | (.error e, _) => (.error e, s)
    | (.ok _, dim') =>
      (.ok (), { s with cfg := { s.cfg with
          dimensions := s.cfg.dimensions.set i dim' } })

/-- Lookup in the modelled `lru_cache` store (keyed by the determiner
tuple). -/
noncomputable def cacheLookup (k : List ℝ) :
    List (List ℝ × Color) → Option Color
  | [] => none
  | (k', v) :: rest => if k' = k then some v else cacheLookup k rest

noncomputable instance : DecidableEq Unload := Classical.decEq _

/-- `ColorFactory.get_color` (`data_colors.py` lines 559-565): recompute
the configuration fingerprint; if it changed, clear the cache and store the
new fingerprint; then answer from the cache or compute and memoize
(`lru_cache` stores only results of calls that do not raise). -/
noncomputable def ColorFactory.get_color (s : FactoryState) (t : List ℝ) :
    Except Err Color × FactoryState :=
  let fp := some (ColorFactory.unload s.cfg)
  let s₁ := if fp ≠ s.chash then { s with cache := [], chash := fp } else s
  match cacheLookup t s₁.cache with
  | some v => (.ok v, s₁)
  | none =>
    match computeUncached s₁.cfg t with
    | .ok v => (.ok v, { s₁ with cache := (t, v) :: s₁.cache })
    | .error e => (.error e, s₁)

/-- The factory states reachable through the public API: construction,
adding dimensions, adding config points through a dimension handle, and
queries (which mutate the memo state). -/
inductive Reachable : FactoryState → Prop where
  | init (m : String) : Reachable (ColorFactory.init m)
  | addDim {s} (e : ℝ) : Reachable s → Reachable (ColorFactory.add_dimension e s).2
  | addCfg {s} (i : ℕ) (d : ℝ) (c : Color) :
      Reachable s → Reachable (ColorFactory.add_config i d c s).2
  | query {s} (t : List ℝ) : Reachable s → Reachable (ColorFactory.get_color s t).2

/-- `Color(...)` on an in-range triple succeeds and returns that triple. -/
theorem Color.ofRGB_ok {r g b : ℤ} (h : (Color.mk r g b).valid) :
    Color.ofRGB r g b = .ok ⟨r, g, b⟩ := by
  unfold Color.ofRGB; rw [if_pos h]

/-- Channel-wise introduction rule for `Color.valid`. -/
theorem Color.valid_mk {r g b : ℤ} (h1 : 0 ≤ r) (h2 : r ≤ 255) (h3 : 0 ≤ g)
    (h4 : g ≤ 255) (h5 : 0 ≤ b) (h6 : b ≤ 255) : (Color.mk r g b).valid :=
  ⟨h1, h2, h3, h4, h5, h6⟩

/-- `pyTrunc` of a nonnegative real is nonnegative. -/
theorem pyTrunc_nonneg {x : ℝ} (h : 0 ≤ x) : 0 ≤ pyTrunc x := by
  unfold pyTrunc; rw [if_pos h]; exact Int.floor_nonneg.mpr h

/-- `pyTrunc` preserves an integer upper bound on nonnegative input. -/
theorem pyTrunc_le_of_le {x : ℝ} {n : ℤ} (h0 : 0 ≤ x) (h : x ≤ (n : ℝ)) :
    pyTrunc x ≤ n := by
  unfold pyTrunc; rw [if_pos h0]
  calc ⌊x⌋ ≤ ⌊(n : ℝ)⌋ := Int.floor_le_floor h
  _ = n := Int.floor_intCast n

/-- A clamped-alpha lerp channel stays inside `[0, 255]` when both input
channels do. -/
theorem lerp_channel_mem {x y : ℤ} (hx0 : 0 ≤ x) (hx1 : x ≤ 255)
    (hy0 : 0 ≤ y) (hy1 : y ≤ 255) (α : ℝ) :
    0 ≤ (x : ℝ) + ((y : ℝ) - (x : ℝ)) * max 0 (min 1 α) ∧
      (x : ℝ) + ((y : ℝ) - (x : ℝ)) * max 0 (min 1 α) ≤ 255 := by
  have hm0 : (0 : ℝ) ≤ max 0 (min 1 α) := le_max_left _ _
  have hm1 : max (0 : ℝ) (min 1 α) ≤ 1 := max_le zero_le_one (min_le_left _ _)
  have hx0' : (0 : ℝ) ≤ (x : ℝ) := by exact_mod_cast hx0
  have hx1' : (x : ℝ) ≤ 255 := by exact_mod_cast hx1
  have hy0' : (0 : ℝ) ≤ (y : ℝ) := by exact_mod_cast hy0
  have hy1' : (y : ℝ) ≤ 255 := by exact_mod_cast hy1
  constructor <;> nlinarith

/-- An overlay channel stays inside `[0, 255]` when both input channels
do. -/
theorem overlayChannel_mem {x y : ℤ} (hx0 : 0 ≤ x) (hx1 : x ≤ 255)
    (hy0 : 0 ≤ y) (hy1 : y ≤ 255) :
    0 ≤ overlayChannel x y ∧ overlayChannel x y ≤ 255 := by
  unfold overlayChannel
  split_ifs with h
  · have h1 : 0 ≤ 2 * x * y := by positivity
    have h2 : 2 * x * y ≤ 2 * 127 * 255 := by nlinarith
    omega
  · have h0 : 128 ≤ x := by omega
    have h1 : 0 ≤ 2 * (255 - x) * (255 - y) := by nlinarith
    have h2 : 2 * (255 - x) * (255 - y) ≤ 2 * 127 * 255 := by nlinarith
    omega

/-- A two-color blend with a valid method and valid inputs succeeds and
yields a valid color (each primitive produces in-range channels, so the
`Color(...)` construction inside it cannot raise). -/
theorem blendPair_ok_of_valid {m : String} (hm : m ∈ validBlendMethods)
    {c₁ c₂ : Color} (h₁ : c₁.valid) (h₂ : c₂.valid) :
    ∃ r, Color.blendPair m c₁ c₂ = .ok r ∧ r.valid := by
  obtain ⟨a1, a2, a3, a4, a5, a6⟩ := h₁
  obtain ⟨b1, b2, b3, b4, b5, b6⟩ := h₂
  simp only [validBlendMethods, List.mem_cons, List.not_mem_nil, or_false] at hm
  unfold Color.blendPair
  rcases hm with rfl | rfl | rfl | rfl | rfl | rfl
  · rw [if_pos (Or.inl rfl)]
    unfold Color.blend_lerp
    have hr := lerp_channel_mem a1 a2 b1 b2 (1 / 2 : ℝ)
    have hg := lerp_channel_mem a3 a4 b3 b4 (1 / 2 : ℝ)
    have hb := lerp_channel_mem a5 a6 b5 b6 (1 / 2 : ℝ)
    have hv := Color.valid_mk (pyTrunc_nonneg hr.1)
      (pyTrunc_le_of_le hr.1 (by exact_mod_cast hr.2))
      (pyTrunc_nonneg hg.1) (pyTrunc_le_of_le hg.1 (by exact_mod_cast hg.2))
      (pyTrunc_nonneg hb.1) (pyTrunc_le_of_le hb.1 (by exact_mod_cast hb.2))
    exact ⟨_, Color.ofRGB_ok hv, hv⟩
  · rw [if_neg (by decide), if_pos rfl]
    unfold Color.blend_additive
    have hv := @Color.valid_mk (min 255 (c₁.red + c₂.red))
      (min 255 (c₁.green + c₂.green)) (min 255 (c₁.blue + c₂.blue))
      (by omega) (by omega) (by omega) (by omega) (by omega) (by omega)
    exact ⟨_, Color.ofRGB_ok hv, hv⟩
  · rw [if_neg (by decide), if_neg (by decide), if_pos rfl]
    unfold Color.blend_subtractive
    have hv := @Color.valid_mk (max 0 (c₁.red - c₂.red))
      (max 0 (c₁.green - c₂.green)) (max 0 (c₁.blue - c₂.blue))
      (by omega) (by omega) (by omega) (by omega) (by omega) (by omega)
    exact ⟨_, Color.ofRGB_ok hv, hv⟩
  · rw [if_neg (by decide), if_neg (by decide), if_neg (by decide), if_pos rfl]
    unfold Color.blend_difference
    have hv := @Color.valid_mk |c₁.red - c₂.red| |c₁.green - c₂.green|
      |c₁.blue - c₂.blue| (abs_nonneg _) (by rw [abs_le]; omega)
      (abs_nonneg _) (by rw [abs_le]; omega) (abs_nonneg _) (by rw [abs_le]; omega)
    exact ⟨_, Color.ofRGB_ok hv, hv⟩
  · rw [if_neg (by decide), if_neg (by decide), if_neg (by decide), if_neg (by decide),
      if_pos rfl]
    unfold Color.blend_multiply
    have m1a : 0 ≤ c₁.red * c₂.red := by positivity
    have m1b : c₁.red * c₂.red ≤ 65025 := by nlinarith
    have m2a : 0 ≤ c₁.green * c₂.green := by positivity
    have m2b : c₁.green * c₂.green ≤ 65025 := by nlinarith
    have m3a : 0 ≤ c₁.blue * c₂.blue := by positivity
    have m3b : c₁.blue * c₂.blue ≤ 65025 := by nlinarith
    have hv := @Color.valid_mk (c₁.red * c₂.red / 255)
      (c₁.green * c₂.green / 255) (c₁.blue * c₂.blue / 255)
      (by omega) (by omega) (by omega) (by omega) (by omega) (by omega)
    exact ⟨_, Color.ofRGB_ok hv, hv⟩
  · rw [if_neg (by decide), if_neg (by decide), if_neg (by decide), if_neg (by decide),
      if_neg (by decide), if_pos rfl]
    unfold Color.blend_overlay
    have o1 := overlayChannel_mem a1 a2 b1 b2
    have o2 := overlayChannel_mem a3 a4 b3 b4
    have o3 := overlayChannel_mem a5 a6 b5 b6
    have hv := Color.valid_mk o1.1 o1.2 o2.1 o2.2 o3.1 o3.2
    exact ⟨_, Color.ofRGB_ok hv, hv⟩

/-- A two-color blend with a method outside the closed set falls through
every dispatch branch to the `raise`. -/
theorem blendPair_unknown {m : String} (hm : m ∉ validBlendMethods)
    (c₁ c₂ : Color) : Color.blendPair m c₁ c₂ = .error .unknownBlendMethod := by
  simp only [validBlendMethods, List.mem_cons, List.not_mem_nil, or_false, not_or] at hm
  obtain ⟨n1, n2, n3, n4, n5, n6⟩ := hm
  unfold Color.blendPair
  rw [if_neg (by simp [LERP_BLEND, ALPHA_BLEND] at n1 ⊢; exact n1),
    if_neg n2, if_neg n3, if_neg n4, if_neg n5, if_neg n6]

/-- `Color.blend` on a nonempty list of valid colors with a valid method
succeeds with a valid color (by induction on the reduction length). -/
theorem blend_ok_of_valid {m : String} (hm : m ∈ validBlendMethods) :
    ∀ (n : ℕ) (cs : List Color), cs.length ≤ n → cs ≠ [] →
      (∀ c ∈ cs, c.valid) → ∃ r, Color.blend cs m = .ok r ∧ r.valid := by
  intro n
  induction n with
  | zero =>
    intro cs h hne _
    cases cs with
    | nil => exact absurd rfl hne
    | cons c rest => simp at h
  | succ n ih =>
    intro cs hlen hne hval
    match cs with
    | [c] => exact ⟨c, by simp [Color.blend], hval c (by simp)⟩
    | c₁ :: c₂ :: rest =>
      obtain ⟨r, hr, hrv⟩ :=
        blendPair_ok_of_valid hm (hval c₁ (by simp)) (hval c₂ (by simp))
      have hvr : ∀ c ∈ r :: rest, c.valid := by
        intro c hc
        rcases List.mem_cons.mp hc with h | h
        · exact h ▸ hrv
        · exact hval c (by simp [h])
      obtain ⟨r', hr', hrv'⟩ := ih (r :: rest)
        (by simp at hlen ⊢; omega) (by simp) hvr
      refine ⟨r', ?_, hrv'⟩
      rw [Color.blend, hr]
      exact hr'

/-- C2: in the `colors.py` revision, `Color.blend` dispatches the
`"difference"` method to `_blend_subtractive` (lines 342-343), so at
`[(10,0,0), (40,0,0)]` it returns the subtractive result `(0,0,0)` instead
of the difference formula's `(30,0,0)`; in `data_colors.py` the two
primitives are distinct and give `max(0, 10-40) = 0` and `|10-40| = 30`
respectively on the red channel. -/
theorem claim_C2_difference_aliased_to_subtractive :
    ColorsPy.blend [(10, 0, 0), (40, 0, 0)] "difference" = .ok (0, 0, 0) ∧
    ColorsPy.blend [(10, 0, 0), (40, 0, 0)] "subtractive" = .ok (0, 0, 0) ∧
    ColorsPy.blendStep "difference" (10, 0, 0) (40, 0, 0) =
      .ok (ColorsPy.blend_subtractive (10, 0, 0) (40, 0, 0)) ∧
    ColorsPy.blend_difference (10, 0, 0) (40, 0, 0) = (30, 0, 0) ∧
    Color.blend_difference ⟨10, 0, 0⟩ ⟨40, 0, 0⟩ = .ok ⟨30, 0, 0⟩ ∧
    Color.blend_subtractive ⟨10, 0, 0⟩ ⟨40, 0, 0⟩ = .ok ⟨0, 0, 0⟩ ∧
    ((0 : ℤ), (0 : ℤ), (0 : ℤ)) ≠ ((30 : ℤ), (0 : ℤ), (0 : ℤ)) :=
  ⟨rfl, rfl, rfl, rfl, rfl, rfl, by decide⟩

/-- C4: `Color.css_fg_bg` compares `luminance()` against `0.5`, not
`0.5 * 255`; at `(10,10,10)` the luminance is `10`, which is below the
claimed threshold `127.5` (so the claim demands white) yet at or above the
source's threshold `0.5`, so the code emits black. -/
theorem claim_C4_luminance_threshold_bug :
    Color.css_fg_bg ⟨10, 10, 10⟩ =
      ("color:black;background-color:#0A0A0A;").data ∧
    Color.luminance ⟨10, 10, 10⟩ = 10 ∧
    Color.luminance ⟨10, 10, 10⟩ < 255 / 2 ∧
    (1 : ℚ) / 2 ≤ Color.luminance ⟨10, 10, 10⟩ := by
  have hl : Color.luminance ⟨10, 10, 10⟩ = 10 := by
    unfold Color.luminance; norm_num
  refine ⟨?_, hl, by rw [hl]; norm_num, by rw [hl]; norm_num⟩
  unfold Color.css_fg_bg
  rw [hl, if_pos (by norm_num : (1 : ℚ) / 2 ≤ 10)]
  decide

/-- C6 (amended): `Color.blend` raises `EmptyInput` on the empty list,
returns a singleton's element unchanged whatever the method identifier,
raises `UnknownBlendMethod` for a method outside the closed set on every
list of length at least two, and succeeds on any nonempty list of valid
colors with a method inside the set. -/
theorem claim_C6_blend_error_handling :
    (∀ m : String, Color.blend [] m = .error .emptyInput) ∧
    (∀ (m : String) (c : Color), Color.blend [c] m = .ok c) ∧
    (∀ (m : String) (c₁ c₂ : Color) (rest : List Color),
      m ∉ validBlendMethods →
      Color.blend (c₁ :: c₂ :: rest) m = .error .unknownBlendMethod) ∧
    (∀ (m : String) (cs : List Color), m ∈ validBlendMethods → cs ≠ [] →
      (∀ c ∈ cs, c.valid) → ∃ r, Color.blend cs m = .ok r) := by
  refine ⟨fun m => by simp [Color.blend], fun m c => by simp [Color.blend],
    fun m c₁ c₂ rest hm => ?_, fun m cs hm hne hv => ?_⟩
  · rw [Color.blend, blendPair_unknown hm]
  · obtain ⟨r, hr, _⟩ := blend_ok_of_valid hm cs.length cs le_rfl hne hv
    exact ⟨r, hr⟩

/-- C6 counterexample: a singleton list with an unknown blend method is
returned unchanged instead of failing with `UnknownBlendMethod` — the
length-1 early return precedes method validation. -/
theorem claim_C6_counterexample :
    Color.blend [⟨0, 0, 0⟩] "bogus" = .ok ⟨0, 0, 0⟩ ∧
    Color.blend [⟨0, 0, 0⟩] "bogus" ≠ .error .unknownBlendMethod ∧
    "bogus" ∉ validBlendMethods := by
  refine ⟨by simp [Color.blend], ?_, by decide⟩
  rw [show Color.blend [⟨0, 0, 0⟩] "bogus" = .ok ⟨0, 0, 0⟩ from by simp [Color.blend]]
  simp

/-- C6 witness: the amended behavior at concrete inputs. -/
theorem claim_C6_witness :
    Color.blend [] "lerp" = .error .emptyInput ∧
    Color.blend [⟨1, 2, 3⟩] "nonsense" = .ok ⟨1, 2, 3⟩ ∧
    Color.blend [⟨0, 0, 0⟩, ⟨255, 255, 255⟩] "nonsense" =
      .error .unknownBlendMethod ∧
    (∃ r, Color.blend [⟨0, 0, 0⟩, ⟨255, 255, 255⟩] "additive" = .ok r) :=
  ⟨claim_C6_blend_error_handling.1 "lerp",
    claim_C6_blend_error_handling.2.1 "nonsense" _,
    claim_C6_blend_error_handling.2.2.1 "nonsense" _ _ [] (by decide),
    claim_C6_blend_error_handling.2.2.2 "additive" _ (by decide) (by simp)
      (by decide)⟩

/-- C9: a dimension holding exactly one config point returns that point's
color for every query determiner — the stored `range` is `0`, so the
`range <= 0` early return fires before any clamping or interpolation. -/
theorem claim_C9_single_point (dim : Dimension) (pt : ConfigPoint)
    (hwf : DimWF dim) (hc : dim.configs = [pt]) :
    ∀ x : ℝ, dim.get_color x = .ok pt.color := by
  intro x
  obtain ⟨hs, hv, hr, hmn, hmx, hrng⟩ := hwf
  rw [hc] at hrng
  have hd : pyMin (detList [pt]) = some pt.determiner := by simp [pyMin, detList]
  have hd' : pyMax (detList [pt]) = some pt.determiner := by simp [pyMax, detList]
  rw [hd, hd'] at hrng
  simp only [mkRange, sub_self] at hrng
  unfold Dimension.get_color
  rw [hrng, hc]
  norm_num

/-- C9 witness: a single-point dimension at determiner 5 queried far away
at 1000. -/
theorem claim_C9_witness :
    DimWF ⟨1, [⟨5, ⟨1, 2, 3⟩⟩], true, some 5, some 5, some 0⟩ ∧
    Dimension.get_color ⟨1, [⟨5, ⟨1, 2, 3⟩⟩], true, some 5, some 5, some 0⟩ 1000 =
      .ok ⟨1, 2, 3⟩ := by
  have hwf : DimWF ⟨1, [⟨5, ⟨1, 2, 3⟩⟩], true, some 5, some 5, some 0⟩ := by
    refine ⟨by simp [cpSorted], by decide, by simp, ?_, ?_, ?_⟩
    · simp [pyMin, detList]
    · simp [pyMax, detList]
    · simp [pyMax, pyMin, detList, mkRange]
  exact ⟨hwf, claim_C9_single_point _ ⟨5, ⟨1, 2, 3⟩⟩ hwf rfl 1000⟩

/-- C10: the two-color lerp reducer is commutative — with the fixed alpha
`0.5`, each output channel is the truncation of the exact midpoint
`(a+b)/2` of the two channels, which is symmetric in its arguments. -/
theorem claim_C10_lerp_comm (a b : Color) :
    Color.blend [a, b] LERP_BLEND = Color.blend [b, a] LERP_BLEND := by
  have hm : max (0 : ℝ) (min 1 (1 / 2)) = 1 / 2 := by norm_num
  have hc : ∀ x y : ℤ,
      (x : ℝ) + ((y : ℝ) - (x : ℝ)) * max 0 (min 1 (1 / 2 : ℝ)) =
        (y : ℝ) + ((x : ℝ) - (y : ℝ)) * max 0 (min 1 (1 / 2 : ℝ)) := by
    intro x y; rw [hm]; ring
  have hp : Color.blendPair LERP_BLEND a b = Color.blendPair LERP_BLEND b a := by
    unfold Color.blendPair
    rw [if_pos (Or.inl rfl), if_pos (Or.inl rfl)]
    unfold Color.blend_lerp
    rw [hc a.red b.red, hc a.green b.green, hc a.blue b.blue]
  cases hq : Color.blendPair LERP_BLEND b a with
  | error e => simp [Color.blend, hp, hq]
  | ok r => simp [Color.blend, hp, hq]

/-- A `≤`-sorted config list whose determiners are distinct is strictly
sorted. -/
theorem sorted_strict_of_le_of_nodup {l : List ConfigPoint}
    (hle : l.Sorted cpLE) (hnd : (detList l).Nodup) : cpSorted l := by
  have h1 : l.Pairwise fun a b => a.determiner ≠ b.determiner := by
    rw [List.Nodup, detList, List.pairwise_map] at hnd
    exact hnd
  exact (hle.and h1).imp fun h => lt_of_le_of_ne h.1 h.2

/-- A strictly sorted config list has pairwise-distinct determiners. -/
theorem detList_nodup_of_sorted {l : List ConfigPoint} (hs : cpSorted l) :
    (detList l).Nodup := by
  rw [detList, List.Nodup, List.pairwise_map]
  exact hs.imp fun h => ne_of_lt h

/-- `add_config` with a duplicate determiner fails with
`InvalidConfigPoint` and leaves the dimension untouched (the duplicate
check precedes every mutation in the source). -/
theorem add_config_dup {dim : Dimension} {d : ℝ} {c : Color}
    (hv : c.valid) (hd : d ∈ detList dim.configs) :
    dim.add_config d c = (.error .invalidConfigPoint, dim) := by
  unfold Dimension.add_config
  rw [if_neg (not_not_intro hv), if_pos hd]

/-- Explicit form of a successful `add_config`. -/
theorem add_config_fresh_eq (dim : Dimension) (d : ℝ) (c : Color)
    (hv : c.valid) (hd : d ∉ detList dim.configs) :
    dim.add_config d c = (.ok (), { dim with
      configs := List.insertionSort cpLE (dim.configs ++ [⟨d, c⟩])
      dmin := pyMin (detList (List.insertionSort cpLE (dim.configs ++ [⟨d, c⟩])))
      dmax := pyMax (detList (List.insertionSort cpLE (dim.configs ++ [⟨d, c⟩])))
      drange := mkRange
        (pyMax (detList (List.insertionSort cpLE (dim.configs ++ [⟨d, c⟩]))))
        (pyMin (detList (List.insertionSort cpLE (dim.configs ++ [⟨d, c⟩]))))
      ready := true }) := by
  unfold Dimension.add_config
  rw [if_neg (not_not_intro hv), if_neg hd]

/-- A successful `add_config` inserts the point, preserves
well-formedness (sorted strictly ascending, coherent `min`/`max`/`range`),
and marks the dimension ready. -/
theorem add_config_fresh {dim : Dimension} {d : ℝ} {c : Color}
    (hwf : DimWF dim) (hv : c.valid) (hd : d ∉ detList dim.configs) :
    (dim.add_config d c).1 = .ok () ∧
    DimWF (dim.add_config d c).2 ∧
    (dim.add_config d c).2.configs.Perm (⟨d, c⟩ :: dim.configs) ∧
    (⟨d, c⟩ : ConfigPoint) ∈ (dim.add_config d c).2.configs ∧
    (dim.add_config d c).2.ready = true ∧
    (dim.add_config d c).2.interpolation_exponent = dim.interpolation_exponent := by
  obtain ⟨hs, hcv, hr, hmn, hmx, hrng⟩ := hwf
  rw [add_config_fresh_eq dim d c hv hd]
  set pt : ConfigPoint := ⟨d, c⟩ with hpt
  set cfgs := List.insertionSort cpLE (dim.configs ++ [pt]) with hcfgs
  have hperm0 : cfgs.Perm (dim.configs ++ [pt]) := List.perm_insertionSort _ _
  have hperm : cfgs.Perm (pt :: dim.configs) :=
    hperm0.trans (List.perm_append_singleton pt dim.configs)
  have hnd : (detList cfgs).Nodup := by
    have hpm : (cfgs.map (fun cp : ConfigPoint => cp.determiner)).Perm
        ((pt :: dim.configs).map fun cp : ConfigPoint => cp.determiner) :=
      hperm.map _
    rw [detList, hpm.nodup_iff]
    simp only [List.map_cons, List.nodup_cons]
    refine ⟨?_, detList_nodup_of_sorted hs⟩
    simpa [detList] using hd
  have hsort : cpSorted cfgs :=
    sorted_strict_of_le_of_nodup (List.sorted_insertionSort cpLE _) hnd
  have hne : cfgs ≠ [] := by
    intro h
    have hl := hperm.length_eq
    rw [h] at hl
    simp at hl
  refine ⟨rfl, ⟨hsort, ?_, ?_, rfl, rfl, rfl⟩, hperm, ?_, rfl, rfl⟩
  · intro cp hcp
    rcases List.mem_cons.mp (hperm.mem_iff.mp hcp) with h | h
    · exact h ▸ hv
    · exact hcv cp h
  · cases h : cfgs with
    | nil => exact absurd h hne
    | cons a l => simp
  · exact hperm.mem_iff.mpr (by simp)

/-- C7: `add_config` with an already-present determiner fails with
`InvalidConfigPoint` and returns the dimension state exactly unchanged
(atomic rejection); with a fresh determiner it succeeds, inserts the
point, keeps the sequence strictly sorted ascending, recomputes
`min`/`max`/`range` (part of `DimWF` of the result), and marks the
dimension ready. -/
theorem claim_C7_add_config_atomic :
    (∀ (dim : Dimension) (d : ℝ) (c : Color), c.valid → d ∈ detList dim.configs →
      dim.add_config d c = (.error .invalidConfigPoint, dim)) ∧
    (∀ (dim : Dimension) (d : ℝ) (c : Color), DimWF dim → c.valid →
      d ∉ detList dim.configs →
      (dim.add_config d c).1 = .ok () ∧ DimWF (dim.add_config d c).2 ∧
      cpSorted (dim.add_config d c).2.configs ∧
      (dim.add_config d c).2.configs.Perm (⟨d, c⟩ :: dim.configs) ∧
      (⟨d, c⟩ : ConfigPoint) ∈ (dim.add_config d c).2.configs ∧
      (dim.add_config d c).2.ready = true) :=
  ⟨fun _ _ _ hv hd => add_config_dup hv hd,
   fun _ _ _ hwf hv hd =>
     have h := add_config_fresh hwf hv hd
     ⟨h.1, h.2.1, h.2.1.1, h.2.2.1, h.2.2.2.1, h.2.2.2.2.1⟩⟩

/-- C7 witness: duplicate determiner 5 rejected with the state returned
unchanged; fresh determiner 7 accepted. -/
theorem claim_C7_witness :
    (Dimension.add_config ⟨1, [⟨5, ⟨1, 2, 3⟩⟩], true, some 5, some 5, some 0⟩ 5 ⟨9, 9, 9⟩ =
      (.error .invalidConfigPoint, ⟨1, [⟨5, ⟨1, 2, 3⟩⟩], true, some 5, some 5, some 0⟩)) ∧
    ((Dimension.add_config ⟨1, [⟨5, ⟨1, 2, 3⟩⟩], true, some 5, some 5, some 0⟩ 7 ⟨9, 9, 9⟩).1 =
      .ok ()) := by
  have hwf : DimWF ⟨1, [⟨5, ⟨1, 2, 3⟩⟩], true, some 5, some 5, some 0⟩ := by
    refine ⟨by simp [cpSorted], by decide, by simp, ?_, ?_, ?_⟩
    · simp [pyMin, detList]
    · simp [pyMax, detList]
    · simp [pyMax, pyMin, detList, mkRange]
  refine ⟨claim_C7_add_config_atomic.1 _ 5 _ (by decide) (by simp [detList]),
    (claim_C7_add_config_atomic.2 _ 7 _ hwf (by decide) ?_).1⟩
  simp [detList]

/-- A successful `Dimension.add_config` always leaves the dimension's
`ready` flag `True`. -/
theorem add_config_snd_ready_of_ok (dim : Dimension) (d : ℝ) (c : Color) (u : Unit)
    (h : (dim.add_config d c).1 = .ok u) : (dim.add_config d c).2.ready = true := by
  unfold Dimension.add_config at h ⊢
  split_ifs at h ⊢ with h1 h2
  · rfl

/-- `add_config` on a contained dimension never makes a ready factory
unready: a failed call changes nothing and a successful call sets the
touched dimension's `ready` flag. -/
theorem factory_add_config_ready (s : FactoryState) (i : ℕ) (d : ℝ) (c : Color)
    (h : factoryReady s.cfg = true) :
    factoryReady ((ColorFactory.add_config i d c s).2).cfg = true := by
  unfold ColorFactory.add_config
  cases hdi : s.cfg.dimensions[i]? with
  | none => simpa using h
  | some dim =>
    rcases hx : dim.add_config d c with ⟨r, dim'⟩
    cases r with
    | error e => dsimp only; rw [hx]; simpa using h
    | ok u =>
      have hrd : dim'.ready = true := by
        have h' := add_config_snd_ready_of_ok dim d c u (by rw [hx])
        rw [hx] at h'
        exact h'
      dsimp only
      rw [hx]
      dsimp only
      unfold factoryReady at h ⊢
      cases hd0 : s.cfg.dimensions with
      | nil => rw [hd0] at h; simp at h
      | cons a l =>
        rw [hd0] at h
        simp only [List.isEmpty_cons, Bool.false_eq_true, if_false] at h
        have hset : ((a :: l).set i dim').isEmpty = false := by
          cases i with
          | zero => rfl
          | succ n => rfl
        dsimp only
        rw [hset]
        simp only [Bool.false_eq_true, if_false]
        rw [List.all_eq_true] at h ⊢
        intro x hx'
        rcases List.mem_or_eq_of_mem_set hx' with hmem | rfl
        · exact h x hmem
        · exact hrd

/-- Concrete evaluation: adding the first dimension to a fresh factory. -/
theorem add_dim_init_eval :
    ColorFactory.add_dimension 1 (ColorFactory.init "lerp") =
      (.ok 0, ⟨⟨"lerp", [Dimension.init 1]⟩, [], none⟩) := by
  unfold ColorFactory.add_dimension ColorFactory.init
  rw [if_neg (by norm_num : ¬ (1 : ℝ) < 0)]
  rfl

/-- Concrete evaluation: the first config point of a fresh dimension. -/
theorem dim_add_config_eval :
    Dimension.add_config (Dimension.init 1) 0 ⟨0, 0, 0⟩ =
      (.ok (), ⟨1, [⟨0, ⟨0, 0, 0⟩⟩], true, some 0, some 0, some 0⟩) := by
  rw [add_config_fresh_eq _ _ _ (by decide) (by simp [detList, Dimension.init])]
  simp [Dimension.init, List.insertionSort, List.orderedInsert, pyMin, pyMax,
    detList, mkRange]

/-- Concrete evaluation: the same config point through the factory
handle. -/
theorem factory_add_config_eval :
    ColorFactory.add_config 0 0 ⟨0, 0, 0⟩ ⟨⟨"lerp", [Dimension.init 1]⟩, [], none⟩ =
      (.ok (), ⟨⟨"lerp", [⟨1, [⟨0, ⟨0, 0, 0⟩⟩], true, some 0, some 0, some 0⟩]⟩, [], none⟩) := by
  unfold ColorFactory.add_config
  simp [dim_add_config_eval, List.set]

/-- C3 counterexample: a reachable Ready factory (one dimension, one
config point) regresses to not-ready when `add_dimension` appends a fresh
empty dimension — readiness is not monotonic across `add_dimension`. -/
theorem claim_C3_counterexample :
    Reachable ⟨⟨"lerp", [⟨1, [⟨0, ⟨0, 0, 0⟩⟩], true, some 0, some 0, some 0⟩]⟩, [], none⟩ ∧
    factoryReady
      (⟨⟨"lerp", [⟨1, [⟨0, ⟨0, 0, 0⟩⟩], true, some 0, some 0, some 0⟩]⟩, [], none⟩ :
        FactoryState).cfg = true ∧
    factoryReady ((ColorFactory.add_dimension 1
      ⟨⟨"lerp", [⟨1, [⟨0, ⟨0, 0, 0⟩⟩], true, some 0, some 0, some 0⟩]⟩, [], none⟩).2).cfg =
      false := by
  refine ⟨?_, by simp [factoryReady], ?_⟩
  · have h := Reachable.addCfg 0 0 (⟨0, 0, 0⟩ : Color)
      (Reachable.addDim 1 (Reachable.init "lerp"))
    rw [add_dim_init_eval] at h
    simp only at h
    rw [factory_add_config_eval] at h
    exact h
  · unfold ColorFactory.add_dimension
    rw [if_neg (by norm_num : ¬ (1 : ℝ) < 0)]
    simp [factoryReady, Dimension.init]

/-- C3 (amended): readiness is monotonic under `add_config` (successful or
failed) and under queries (which leave the configuration untouched), but
`add_dimension` always leaves the factory not-ready because the new
dimension starts with no config points. -/
theorem claim_C3_ready_monotone_amended :
    (∀ (s : FactoryState) (i : ℕ) (d : ℝ) (c : Color),
      factoryReady s.cfg = true →
      factoryReady ((ColorFactory.add_config i d c s).2).cfg = true) ∧
    (∀ (s : FactoryState) (e : ℝ), ¬ e < 0 →
      factoryReady ((ColorFactory.add_dimension e s).2).cfg = false) ∧
    (∀ (s : FactoryState) (t : List ℝ),
      ((ColorFactory.get_color s t).2).cfg = s.cfg) := by
  refine ⟨factory_add_config_ready, ?_, ?_⟩
  · intro s e he
    unfold ColorFactory.add_dimension
    rw [if_neg he]
    simp [factoryReady, Dimension.init]
  · intro s t
    unfold ColorFactory.get_color
    dsimp only
    split
    · split <;> rfl
    · split <;> (split <;> rfl)

/-- C3 witness: the amended statement at the Ready factory of the
counterexample. -/
theorem claim_C3_witness :
    factoryReady
      (⟨⟨"lerp", [⟨1, [⟨0, ⟨0, 0, 0⟩⟩], true, some 0, some 0, some 0⟩]⟩, [], none⟩ :
        FactoryState).cfg = true ∧
    factoryReady ((ColorFactory.add_config 0 99 ⟨7, 7, 7⟩
      ⟨⟨"lerp", [⟨1, [⟨0, ⟨0, 0, 0⟩⟩], true, some 0, some 0, some 0⟩]⟩, [], none⟩).2).cfg =
      true ∧
    factoryReady ((ColorFactory.add_dimension 2
      ⟨⟨"lerp", [⟨1, [⟨0, ⟨0, 0, 0⟩⟩], true, some 0, some 0, some 0⟩]⟩, [], none⟩).2).cfg =
      false ∧
    ((ColorFactory.get_color
      ⟨⟨"lerp", [⟨1, [⟨0, ⟨0, 0, 0⟩⟩], true, some 0, some 0, some 0⟩]⟩, [], none⟩ [0]).2).cfg =
      ⟨"lerp", [⟨1, [⟨0, ⟨0, 0, 0⟩⟩], true, some 0, some 0, some 0⟩]⟩ := by
  have hready : factoryReady
      (⟨⟨"lerp", [⟨1, [⟨0, ⟨0, 0, 0⟩⟩], true, some 0, some 0, some 0⟩]⟩, [], none⟩ :
        FactoryState).cfg = true := by
    simp [factoryReady]
  exact ⟨hready, claim_C3_ready_monotone_amended.1 _ 0 99 _ hready,
    claim_C3_ready_monotone_amended.2.1 _ 2 (by norm_num),
    claim_C3_ready_monotone_amended.2.2 _ [0]⟩

/-- Python `min` folding over elements all at least the seed returns the
seed. -/
theorem foldl_min_of_le : ∀ {xs : List ℝ} {x : ℝ}, (∀ y ∈ xs, x ≤ y) →
    xs.foldl min x = x := by
  intro xs
  induction xs with
  | nil => intro x _; rfl
  | cons y ys ih =>
    intro x h
    rw [List.foldl_cons, min_eq_left (h y (by simp))]
    exact ih fun z hz => h z (by simp [hz])

/-- Python `max` folding over an ascending list returns its last
element. -/
theorem foldl_max_sorted : ∀ {xs : List ℝ} {x : ℝ}, (x :: xs).Pairwise (· ≤ ·) →
    some (xs.foldl max x) = (x :: xs).getLast? := by
  intro xs
  induction xs with
  | nil => intro x _; rfl
  | cons y ys ih =>
    intro x h
    have hxy : x ≤ y := (List.pairwise_cons.mp h).1 y (by simp)
    rw [List.getLast?_cons_cons, List.foldl_cons, max_eq_right hxy]
    exact ih h.of_cons

/-- The determiners of a strictly sorted config list are weakly sorted. -/
theorem detList_sorted_le {l : List ConfigPoint} (hs : cpSorted l) :
    (detList l).Pairwise (· ≤ ·) := by
  rw [detList, List.pairwise_map]
  exact hs.imp le_of_lt

/-- On a sorted config list, `min(configs)` is the head determiner. -/
theorem pyMin_sorted {l : List ConfigPoint} (hs : cpSorted l) :
    pyMin (detList l) = l.head?.map (·.determiner) := by
  cases l with
  | nil => rfl
  | cons c rest =>
    simp only [detList, List.map_cons, pyMin, List.head?_cons, Option.map_some]
    congr 1
    apply foldl_min_of_le
    intro y hy
    obtain ⟨cp, hcp, rfl⟩ := List.mem_map.mp hy
    exact le_of_lt ((List.pairwise_cons.mp hs).1 cp hcp)

/-- On a sorted config list, `max(configs)` is the last determiner. -/
theorem pyMax_sorted {l : List ConfigPoint} (hs : cpSorted l) :
    pyMax (detList l) = l.getLast?.map (·.determiner) := by
  cases l with
  | nil => rfl
  | cons c rest =>
    have h1 : some ((detList rest).foldl max c.determiner) =
        (c.determiner :: detList rest).getLast? := by
      apply foldl_max_sorted
      have := detList_sorted_le hs
      simpa [detList] using this
    simp only [detList, List.map_cons, pyMax]
    rw [show Option.map (fun x : ConfigPoint => x.determiner) (c :: rest).getLast? =
      (List.map (fun x : ConfigPoint => x.determiner) (c :: rest)).getLast? from
      (List.getLast?_map _ _).symm]
    exact h1

/-- The bracket scan succeeds whenever the probe is at most the last
determiner: the final comparison `adjusted <= configs[-1]` then fires at
the latest. -/
theorem findBracket_isSome (x : ℝ) : ∀ (rest : List ConfigPoint) (c₁ c₂ : ConfigPoint),
    x ≤ ((c₂ :: rest).getLast (by simp)).determiner →
    ∃ p, findBracket x (c₁ :: c₂ :: rest) = some p := by
  intro rest
  induction rest with
  | nil =>
    intro c₁ c₂ h
    refine ⟨(c₁, c₂), ?_⟩
    unfold findBracket
    rw [if_pos (by simpa using h)]
  | cons c₃ rs ih =>
    intro c₁ c₂ h
    by_cases hle : x ≤ c₂.determiner
    · exact ⟨(c₁, c₂), by unfold findBracket; rw [if_pos hle]⟩
    · obtain ⟨p, hp⟩ := ih c₂ c₃ (by rwa [List.getLast_cons (by simp)] at h)
      exact ⟨p, by unfold findBracket; rw [if_neg hle]; exact hp⟩

/-- On a strictly sorted list, any bracket the scan returns is an adjacent
pair, hence its determiners are strictly ordered. -/
theorem findBracket_lt {x : ℝ} : ∀ {l : List ConfigPoint}, cpSorted l →
    ∀ {lo hi : ConfigPoint}, findBracket x l = some (lo, hi) →
    lo.determiner < hi.determiner := by
  intro l
  induction l with
  | nil => intro _ lo hi h; simp [findBracket] at h
  | cons c₁ rest ih =>
    intro hs lo hi h
    cases rest with
    | nil => simp [findBracket] at h
    | cons c₂ rs =>
      unfold findBracket at h
      by_cases hle : x ≤ c₂.determiner
      · rw [if_pos hle] at h
        have h12 : c₁ = lo ∧ c₂ = hi := by simpa using h
        rw [← h12.1, ← h12.2]
        exact (List.pairwise_cons.mp hs).1 c₂ (by simp)
      · rw [if_neg hle] at h
        exact ih hs.of_cons h

/-- The exponent warp never overshoots the range: for `0 ≤ t ≤ R`,
`0 < R` and `e ≥ 0`, `t^e * R^(1-e) ≤ R`. -/
theorem warp_le {t R e : ℝ} (ht0 : 0 ≤ t) (htR : t ≤ R) (hR : 0 < R)
    (he : 0 ≤ e) : Real.rpow t e * Real.rpow R (1 - e) ≤ R := by
  have h1 : Real.rpow t e ≤ Real.rpow R e := Real.rpow_le_rpow ht0 htR he
  have h2 : (0 : ℝ) ≤ Real.rpow R (1 - e) := Real.rpow_nonneg hR.le _
  calc Real.rpow t e * Real.rpow R (1 - e)
      ≤ Real.rpow R e * Real.rpow R (1 - e) := mul_le_mul_of_nonneg_right h1 h2
    _ = Real.rpow R (e + (1 - e)) := (Real.rpow_add hR e (1 - e)).symm
    _ = Real.rpow R 1 := by rw [show e + (1 - e) = (1 : ℝ) from by ring]
    _ = R := Real.rpow_one R

/-- The exponent warp never undershoots the minimum. -/
theorem warp_nonneg {t R e : ℝ} (ht0 : 0 ≤ t) (hR : 0 ≤ R) :
    0 ≤ Real.rpow t e * Real.rpow R (1 - e) :=
  mul_nonneg (Real.rpow_nonneg ht0 _) (Real.rpow_nonneg hR _)

/-- `blend_lerp` can only return a color or `InvalidColor`; never the scan
or degenerate-gradient errors. -/
theorem blend_lerp_ne_scan_errors (c₁ c₂ : Color) (a : ℝ) :
    Color.blend_lerp c₁ c₂ a ≠ .error .pyUnboundLocal ∧
    Color.blend_lerp c₁ c₂ a ≠ .error .degenerateGradient := by
  unfold Color.blend_lerp Color.ofRGB
  split_ifs <;> exact ⟨by simp, by simp⟩

/-- C5: for a well-formed dimension with at least two config points and a
nonnegative exponent, `get_color` always finds a bracketing adjacent pair
(the warped, clamped determiner stays within `[min, max]`), so neither the
fall-through-without-break error nor the `DegenerateGradient` branch is
reachable, for every input determiner. -/
theorem claim_C5_bracket_total (dim : Dimension) (hwf : DimWF dim)
    (hlen : 2 ≤ dim.configs.length) (hexp : 0 ≤ dim.interpolation_exponent)
    (x : ℝ) :
    dim.get_color x ≠ .error .pyUnboundLocal ∧
    dim.get_color x ≠ .error .degenerateGradient := by
  obtain ⟨hs, hv, hr, hmn, hmx, hrng⟩ := hwf
  rcases hcfg : dim.configs with _ | ⟨c₁, _ | ⟨c₂, rest⟩⟩
  · rw [hcfg] at hlen; simp at hlen
  · rw [hcfg] at hlen; simp at hlen
  rw [hcfg] at hs hmn hmx hrng
  set lastc := (c₂ :: rest).getLast (by simp) with hlastc
  have hpmax : pyMax (detList (c₁ :: c₂ :: rest)) = some lastc.determiner := by
    rw [pyMax_sorted hs, List.getLast?_cons_cons,
      List.getLast?_eq_getLast _ (by simp)]
    rfl
  have hpmin : pyMin (detList (c₁ :: c₂ :: rest)) = some c₁.determiner := by
    rw [pyMin_sorted hs]; rfl
  have hmn' : dim.dmin = some c₁.determiner := by rw [hmn, hpmin]
  have hmx' : dim.dmax = some lastc.determiner := by rw [hmx, hpmax]
  have hlt : c₁.determiner < lastc.determiner :=
    (List.pairwise_cons.mp hs).1 lastc (List.getLast_mem _)
  have hrng' : dim.drange = some (lastc.determiner - c₁.determiner) := by
    rw [hrng, hpmax, hpmin]; rfl
  have hRpos : 0 < lastc.determiner - c₁.determiner := sub_pos.mpr hlt
  have hd'2 : max c₁.determiner (min lastc.determiner x) ≤ lastc.determiner :=
    max_le hlt.le (min_le_left _ _)
  have ht0 : 0 ≤ max c₁.determiner (min lastc.determiner x) - c₁.determiner :=
    sub_nonneg.mpr (le_max_left _ _)
  have htR : max c₁.determiner (min lastc.determiner x) - c₁.determiner ≤
      lastc.determiner - c₁.determiner := by linarith
  have hadj : c₁.determiner +
      Real.rpow (max c₁.determiner (min lastc.determiner x) - c₁.determiner)
        dim.interpolation_exponent *
      Real.rpow (lastc.determiner - c₁.determiner)
        (1 - dim.interpolation_exponent) ≤ lastc.determiner := by
    have := warp_le ht0 htR hRpos hexp
    linarith
  obtain ⟨⟨lo, hi⟩, hp⟩ := findBracket_isSome _ rest c₁ c₂ hadj
  have hlohi : lo.determiner < hi.determiner := by
    apply findBracket_lt hs
    exact hp
  have heq : dim.get_color x = Color.blend_lerp lo.color hi.color
      ((c₁.determiner +
        Real.rpow (max c₁.determiner (min lastc.determiner x) - c₁.determiner)
          dim.interpolation_exponent *
        Real.rpow (lastc.determiner - c₁.determiner)
          (1 - dim.interpolation_exponent) - lo.determiner) /
        (hi.determiner - lo.determiner)) := by
    unfold Dimension.get_color
    rw [hrng']
    dsimp only
    rw [if_neg (not_le.mpr hRpos), hmn', hmx', hcfg]
    dsimp only
    rw [hp]
    dsimp only
    rw [if_neg (ne_of_lt hlohi)]
  rw [heq]
  exact blend_lerp_ne_scan_errors _ _ _

/-- C5 witness: a two-point dimension (0 ↦ black, 10 ↦ white), exponent 1,
queried at 3. -/
theorem claim_C5_witness :
    DimWF ⟨1, [⟨0, ⟨0, 0, 0⟩⟩, ⟨10, ⟨255, 255, 255⟩⟩], true, some 0, some 10, some 10⟩ ∧
    Dimension.get_color
      ⟨1, [⟨0, ⟨0, 0, 0⟩⟩, ⟨10, ⟨255, 255, 255⟩⟩], true, some 0, some 10, some 10⟩ 3 ≠
      .error .pyUnboundLocal ∧
    Dimension.get_color
      ⟨1, [⟨0, ⟨0, 0, 0⟩⟩, ⟨10, ⟨255, 255, 255⟩⟩], true, some 0, some 10, some 10⟩ 3 ≠
      .error .degenerateGradient := by
  have hwf : DimWF ⟨1, [⟨0, ⟨0, 0, 0⟩⟩, ⟨10, ⟨255, 255, 255⟩⟩], true,
      some 0, some 10, some 10⟩ := by
    refine ⟨?_, by decide, by simp, ?_, ?_, ?_⟩
    · simp [cpSorted]
    · simp [pyMin, detList]
    · simp [pyMax, detList]
    · simp [pyMax, pyMin, detList, mkRange]
  have h := claim_C5_bracket_total _ hwf (by simp) (by norm_num) 3
  exact ⟨hwf, h.1, h.2⟩

/-- Unfolding law for the fuelled hex expansion. -/
theorem natHexAux_succ (fuel n : ℕ) : natHexAux (fuel + 1) n =
    if n < 16 then [hexDigitChar n]
    else natHexAux fuel (n / 16) ++ [hexDigitChar (n % 16)] := rfl

/-- Unfolding law for the fuelled decimal expansion. -/
theorem natDecAux_succ (fuel n : ℕ) : natDecAux (fuel + 1) n =
    if n < 10 then [decDigitChar n]
    else natDecAux fuel (n / 10) ++ [decDigitChar (n % 10)] := rfl

/-- The decimal expansion does not depend on the fuel, as long as it
suffices. -/
theorem natDecAux_congr : ∀ (f₁ f₂ n : ℕ), n < f₁ → n < f₂ →
    natDecAux f₁ n = natDecAux f₂ n := by
  intro f₁
  induction f₁ with
  | zero => intro f₂ n h _; omega
  | succ f ih =>
    intro f₂ n h1 h2
    obtain ⟨k, rfl⟩ : ∃ k, f₂ = k + 1 := ⟨f₂ - 1, by omega⟩
    rw [natDecAux_succ, natDecAux_succ]
    by_cases h10 : n < 10
    · rw [if_pos h10, if_pos h10]
    · rw [if_neg h10, if_neg h10]
      have hd : n / 10 < n := Nat.div_lt_self (by omega) (by omega)
      rw [ih k (n / 10) (by omega) (by omega)]

/-- Recursive characterization of the decimal expansion. -/
theorem natDecDigits_eq (n : ℕ) : natDecDigits n =
    if n < 10 then [decDigitChar n]
    else natDecDigits (n / 10) ++ [decDigitChar (n % 10)] := by
  unfold natDecDigits
  rw [natDecAux_succ]
  by_cases h : n < 10
  · rw [if_pos h, if_pos h]
  · rw [if_neg h, if_neg h]
    have hd : n / 10 < n := Nat.div_lt_self (by omega) (by omega)
    rw [natDecAux_congr n (n / 10 + 1) (n / 10) (by omega) (by omega)]

/-- Appending one digit multiplies the accumulated value by ten. -/
theorem digitsVal_append_one (l : List Char) (c : Char) :
    digitsVal (l ++ [c]) = 10 * digitsVal l + (c.toNat - 48) := by
  unfold digitsVal
  rw [List.foldl_append]
  rfl

/-- Decimal print-then-parse is the identity. -/
theorem digitsVal_natDecDigits : ∀ n : ℕ, digitsVal (natDecDigits n) = n := by
  intro n
  induction n using Nat.strong_induction_on with
  | _ n ih =>
    rw [natDecDigits_eq]
    by_cases h : n < 10
    · rw [if_pos h]
      have hsm : ∀ m : ℕ, m < 10 → digitsVal [decDigitChar m] = m := by decide
      exact hsm n h
    · rw [if_neg h, digitsVal_append_one,
        ih (n / 10) (Nat.div_lt_self (by omega) (by omega))]
      have hsm : ∀ m : ℕ, m < 10 → (decDigitChar m).toNat - 48 = m := by decide
      rw [hsm (n % 10) (by omega)]
      omega

/-- Every character of a decimal expansion is a decimal digit. -/
theorem natDecDigits_chars : ∀ n : ℕ, ∀ ch ∈ natDecDigits n, ∃ m, m < 10 ∧ ch = decDigitChar m := by
  intro n
  induction n using Nat.strong_induction_on with
  | _ n ih =>
    intro ch hch
    rw [natDecDigits_eq] at hch
    by_cases h : n < 10
    · rw [if_pos h] at hch
      exact ⟨n, h, (List.mem_singleton.mp hch).symm ▸ rfl⟩
    · rw [if_neg h] at hch
      rcases List.mem_append.mp hch with hm | hm
      · exact ih (n / 10) (Nat.div_lt_self (by omega) (by omega)) ch hm
      · exact ⟨n % 10, by omega, (List.mem_singleton.mp hm)⟩

/-- For a byte value, `"%02X"` yields exactly the two expected hex
digits. -/
theorem natHexDigits_two {n : ℕ} (h : n < 256) :
    pad02 (natHexDigits n) = [hexDigitChar (n / 16), hexDigitChar (n % 16)] := by
  unfold natHexDigits
  rw [natHexAux_succ]
  by_cases h16 : n < 16
  · rw [if_pos h16]
    unfold pad02
    rw [if_pos (by simp)]
    rw [Nat.div_eq_of_lt h16, Nat.mod_eq_of_lt h16]
    rfl
  · rw [if_neg h16]
    obtain ⟨k, hk⟩ : ∃ k, n = k + 1 := ⟨n - 1, by omega⟩
    rw [hk, natHexAux_succ, if_pos (by omega : (k + 1) / 16 < 16)]
    unfold pad02
    rw [if_neg (by simp)]
    rfl

/-- `dropWhile` is the identity when no element satisfies the
predicate. -/
theorem dropWhile_eq_self_of {p : Char → Bool} :
    ∀ {l : List Char}, (∀ c ∈ l, p c = false) → l.dropWhile p = l := by
  intro l h
  cases l with
  | nil => rfl
  | cons c cs => simp [List.dropWhile, h c (by simp)]

/-- `str.strip()` is the identity on strings with no whitespace. -/
theorem pyStrip_of_no_space {l : List Char} (h : ∀ c ∈ l, pyIsSpace c = false) :
    pyStrip l = l := by
  unfold pyStrip
  rw [dropWhile_eq_self_of h,
    dropWhile_eq_self_of (fun c hc => h c (List.mem_reverse.mp hc)),
    List.reverse_reverse]

/-- Lower-casing an uppercase hex digit and reading it back recovers its
value. -/
theorem hexVal_toLower : ∀ m : ℕ, m < 16 →
    hexVal (Char.toLower (hexDigitChar m)) = some m := by decide

/-- Hex digit characters are not whitespace. -/
theorem hexDigit_not_space : ∀ m : ℕ, m < 16 →
    pyIsSpace (hexDigitChar m) = false := by decide

/-- For an in-range channel, `f"{z:02X}"` is the two-digit form. -/
theorem intHex02_two {z : ℤ} (h0 : 0 ≤ z) (h1 : z ≤ 255) :
    intHex02 z = [hexDigitChar (z.toNat / 16), hexDigitChar (z.toNat % 16)] := by
  unfold intHex02
  rw [if_neg (not_lt.mpr h0)]
  exact natHexDigits_two (by omega)

/-- Constructing a `Color` from its own `"#RRGGBB"` string reproduces it
exactly. -/
theorem html_roundtrip (names : List Char → Option (ℤ × ℤ × ℤ)) (c : Color)
    (hv : c.valid) : Color.new names (.fromStr c.html_color) = .ok c := by
  obtain ⟨h1, h2, h3, h4, h5, h6⟩ := hv
  have e1 : c.red.toNat / 16 < 16 := by omega
  have e2 : c.red.toNat % 16 < 16 := by omega
  have e3 : c.green.toNat / 16 < 16 := by omega
  have e4 : c.green.toNat % 16 < 16 := by omega
  have e5 : c.blue.toNat / 16 < 16 := by omega
  have e6 : c.blue.toNat % 16 < 16 := by omega
  have hshape : c.html_color = '#' :: hexDigitChar (c.red.toNat / 16) ::
      hexDigitChar (c.red.toNat % 16) :: hexDigitChar (c.green.toNat / 16) ::
      hexDigitChar (c.green.toNat % 16) :: hexDigitChar (c.blue.toNat / 16) ::
      [hexDigitChar (c.blue.toNat % 16)] := by
    rw [Color.html_color, intHex02_two h1 h2, intHex02_two h3 h4, intHex02_two h5 h6]
    rfl
  unfold Color.new
  rw [hshape]
  have hstrip : pyStrip ('#' :: hexDigitChar (c.red.toNat / 16) ::
      hexDigitChar (c.red.toNat % 16) :: hexDigitChar (c.green.toNat / 16) ::
      hexDigitChar (c.green.toNat % 16) :: hexDigitChar (c.blue.toNat / 16) ::
      [hexDigitChar (c.blue.toNat % 16)]) = '#' :: hexDigitChar (c.red.toNat / 16) ::
      hexDigitChar (c.red.toNat % 16) :: hexDigitChar (c.green.toNat / 16) ::
      hexDigitChar (c.green.toNat % 16) :: hexDigitChar (c.blue.toNat / 16) ::
      [hexDigitChar (c.blue.toNat % 16)] := by
    apply pyStrip_of_no_space
    intro ch hch
    simp only [List.mem_cons, List.mem_singleton] at hch
    rcases hch with rfl | rfl | rfl | rfl | rfl | rfl | rfl | h
    · decide
    · exact hexDigit_not_space _ e1
    · exact hexDigit_not_space _ e2
    · exact hexDigit_not_space _ e3
    · exact hexDigit_not_space _ e4
    · exact hexDigit_not_space _ e5
    · exact hexDigit_not_space _ e6
    · simp at h
  dsimp only
  rw [hstrip]
  rw [show pyLower ('#' :: hexDigitChar (c.red.toNat / 16) ::
      hexDigitChar (c.red.toNat % 16) :: hexDigitChar (c.green.toNat / 16) ::
      hexDigitChar (c.green.toNat % 16) :: hexDigitChar (c.blue.toNat / 16) ::
      [hexDigitChar (c.blue.toNat % 16)]) = '#' ::
      Char.toLower (hexDigitChar (c.red.toNat / 16)) ::
      Char.toLower (hexDigitChar (c.red.toNat % 16)) ::
      Char.toLower (hexDigitChar (c.green.toNat / 16)) ::
      Char.toLower (hexDigitChar (c.green.toNat % 16)) ::
      Char.toLower (hexDigitChar (c.blue.toNat / 16)) ::
      [Char.toLower (hexDigitChar (c.blue.toNat % 16))] from by
    simp [pyLower]]
  rw [show startsWithSeq "rgb(".data ('#' ::
      Char.toLower (hexDigitChar (c.red.toNat / 16)) ::
      Char.toLower (hexDigitChar (c.red.toNat % 16)) ::
      Char.toLower (hexDigitChar (c.green.toNat / 16)) ::
      Char.toLower (hexDigitChar (c.green.toNat % 16)) ::
      Char.toLower (hexDigitChar (c.blue.toNat / 16)) ::
      [Char.toLower (hexDigitChar (c.blue.toNat % 16))]) = false from by
    simp [startsWithSeq]]
  rw [show startsWithSeq ['#'] ('#' ::
      Char.toLower (hexDigitChar (c.red.toNat / 16)) ::
      Char.toLower (hexDigitChar (c.red.toNat % 16)) ::
      Char.toLower (hexDigitChar (c.green.toNat / 16)) ::
      Char.toLower (hexDigitChar (c.green.toNat % 16)) ::
      Char.toLower (hexDigitChar (c.blue.toNat / 16)) ::
      [Char.toLower (hexDigitChar (c.blue.toNat % 16))]) = true from by
    simp [startsWithSeq]]
  simp only [Bool.false_eq_true, if_false, if_true]
  unfold parseHtml
  simp only [List.drop, List.take]
  rw [show hexSliceVal [Char.toLower (hexDigitChar (c.red.toNat / 16)),
      Char.toLower (hexDigitChar (c.red.toNat % 16))] =
      some (16 * (c.red.toNat / 16) + c.red.toNat % 16) from by
    unfold hexSliceVal
    dsimp only
    rw [hexVal_toLower _ e1, hexVal_toLower _ e2]]
  rw [show hexSliceVal [Char.toLower (hexDigitChar (c.green.toNat / 16)),
      Char.toLower (hexDigitChar (c.green.toNat % 16))] =
      some (16 * (c.green.toNat / 16) + c.green.toNat % 16) from by
    unfold hexSliceVal
    dsimp only
    rw [hexVal_toLower _ e3, hexVal_toLower _ e4]]
  rw [show hexSliceVal [Char.toLower (hexDigitChar (c.blue.toNat / 16)),
      Char.toLower (hexDigitChar (c.blue.toNat % 16))] =
      some (16 * (c.blue.toNat / 16) + c.blue.toNat % 16) from by
    unfold hexSliceVal
    dsimp only
    rw [hexVal_toLower _ e5, hexVal_toLower _ e6]]
  dsimp only
  have hn : ∀ z : ℤ, 0 ≤ z → ((16 * (z.toNat / 16) + z.toNat % 16 : ℕ) : ℤ) = z := by
    intro z hz
    have : 16 * (z.toNat / 16) + z.toNat % 16 = z.toNat := by omega
    rw [this, Int.toNat_of_nonneg hz]
  rw [show Color.ofRGB ((16 * (c.red.toNat / 16) + c.red.toNat % 16 : ℕ) : ℤ)
      ((16 * (c.green.toNat / 16) + c.green.toNat % 16 : ℕ) : ℤ)
      ((16 * (c.blue.toNat / 16) + c.blue.toNat % 16 : ℕ) : ℤ) =
      Color.ofRGB c.red c.green c.blue from by
    rw [hn _ h1, hn _ h3, hn _ h5]]
  rw [Color.ofRGB_ok ⟨h1, h2, h3, h4, h5, h6⟩]

/-- Decimal digit characters are not whitespace. -/
theorem decDigit_not_space : ∀ m : ℕ, m < 10 →
    pyIsSpace (decDigitChar m) = false := by decide

/-- Decimal digit characters are unchanged by lower-casing. -/
theorem decDigit_lower : ∀ m : ℕ, m < 10 →
    Char.toLower (decDigitChar m) = decDigitChar m := by decide

/-- Decimal digit characters satisfy the regex digit class. -/
theorem decDigit_isDigit : ∀ m : ℕ, m < 10 →
    Char.isDigit (decDigitChar m) = true := by decide

/-- A decimal expansion is never empty. -/
theorem natDecDigits_ne_nil (n : ℕ) : natDecDigits n ≠ [] := by
  rw [natDecDigits_eq]
  by_cases h : n < 10
  · rw [if_pos h]; simp
  · rw [if_neg h]; simp

/-- `takeWhile` passes over a block that satisfies the predicate. -/
theorem takeWhile_append_all {p : Char → Bool} :
    ∀ {l₁ l₂ : List Char}, (∀ c ∈ l₁, p c = true) →
    (l₁ ++ l₂).takeWhile p = l₁ ++ l₂.takeWhile p := by
  intro l₁
  induction l₁ with
  | nil => intro l₂ _; rfl
  | cons c cs ih =>
    intro l₂ h
    simp only [List.cons_append, List.takeWhile_cons, h c (by simp)]
    rw [ih fun x hx => h x (by simp [hx])]
    simp

/-- `dropWhile` consumes a block that satisfies the predicate. -/
theorem dropWhile_append_all {p : Char → Bool} :
    ∀ {l₁ l₂ : List Char}, (∀ c ∈ l₁, p c = true) →
    (l₁ ++ l₂).dropWhile p = l₂.dropWhile p := by
  intro l₁
  induction l₁ with
  | nil => intro l₂ _; rfl
  | cons c cs ih =>
    intro l₂ h
    simp only [List.cons_append, List.dropWhile_cons, h c (by simp)]
    rw [ih fun x hx => h x (by simp [hx])]
    simp

/-- The digit group `(\d+)` consumes exactly a printed number when a
non-digit follows. -/
theorem takeNat_canonical (n : ℕ) {rest : List Char} (c : Char)
    (hc : c.isDigit = false) :
    takeNat (natDecDigits n ++ c :: rest) = some (n, c :: rest) := by
  have hdig : ∀ ch ∈ natDecDigits n, Char.isDigit ch = true := by
    intro ch hch
    obtain ⟨m, hm, rfl⟩ := natDecDigits_chars n ch hch
    exact decDigit_isDigit m hm
  unfold takeNat
  rw [takeWhile_append_all hdig, dropWhile_append_all hdig]
  simp only [List.takeWhile_cons, List.dropWhile_cons, hc]
  simp only [List.append_nil, Bool.false_eq_true, if_false]
  rw [if_neg (by simp [List.isEmpty_eq_true, natDecDigits_ne_nil n])]
  rw [digitsVal_natDecDigits]

/-- The whitespace skip is the identity before a printed number. -/
theorem skipSp_digits (n : ℕ) (tail : List Char) :
    skipSp (natDecDigits n ++ tail) = natDecDigits n ++ tail := by
  rcases hnd : natDecDigits n with _ | ⟨d, rest⟩
  · exact absurd hnd (natDecDigits_ne_nil n)
  · obtain ⟨m, hm, rfl⟩ := natDecDigits_chars n d (by rw [hnd]; simp)
    unfold skipSp
    simp [List.dropWhile_cons, decDigit_not_space m hm]

/-- The embedded `rgb` regular expression accepts exactly the string
`Color.__str__` prints and recovers the channel values. -/
theorem parseRgb_canonical (r g b : ℕ) :
    parseRgb ('r' :: 'g' :: 'b' :: '(' ::
      (natDecDigits r ++ ',' :: (natDecDigits g ++ ',' :: (natDecDigits b ++ [')'])))) =
    Color.ofRGB r g b := by
  unfold parseRgb
  rw [show expectChar 'r' ('r' :: 'g' :: 'b' :: '(' ::
      (natDecDigits r ++ ',' :: (natDecDigits g ++ ',' :: (natDecDigits b ++ [')'])))) =
      some ('g' :: 'b' :: '(' ::
      (natDecDigits r ++ ',' :: (natDecDigits g ++ ',' :: (natDecDigits b ++ [')'])))) from by
    simp [expectChar]]
  simp only [Option.bind_eq_bind, Option.some_bind]
  rw [show expectChar 'g' ('g' :: 'b' :: '(' ::
      (natDecDigits r ++ ',' :: (natDecDigits g ++ ',' :: (natDecDigits b ++ [')'])))) =
      some ('b' :: '(' ::
      (natDecDigits r ++ ',' :: (natDecDigits g ++ ',' :: (natDecDigits b ++ [')'])))) from by
    simp [expectChar]]
  simp only [Option.some_bind]
  rw [show expectChar 'b' ('b' :: '(' ::
      (natDecDigits r ++ ',' :: (natDecDigits g ++ ',' :: (natDecDigits b ++ [')'])))) =
      some ('(' ::
      (natDecDigits r ++ ',' :: (natDecDigits g ++ ',' :: (natDecDigits b ++ [')'])))) from by
    simp [expectChar]]
  simp only [Option.some_bind]
  rw [show skipSp ('(' ::
      (natDecDigits r ++ ',' :: (natDecDigits g ++ ',' :: (natDecDigits b ++ [')'])))) =
      '(' :: (natDecDigits r ++ ',' :: (natDecDigits g ++ ',' :: (natDecDigits b ++ [')']))) from by
    simp [skipSp, List.dropWhile_cons, pyIsSpace]]
  rw [show expectChar '(' ('(' ::
      (natDecDigits r ++ ',' :: (natDecDigits g ++ ',' :: (natDecDigits b ++ [')'])))) =
      some (natDecDigits r ++ ',' :: (natDecDigits g ++ ',' :: (natDecDigits b ++ [')']))) from by
    simp [expectChar]]
  simp only [Option.some_bind]
  rw [skipSp_digits r (',' :: (natDecDigits g ++ ',' :: (natDecDigits b ++ [')'])))]
  rw [takeNat_canonical r ',' (by decide)]
  simp only [Option.some_bind]
  rw [show skipSp (',' :: (natDecDigits g ++ ',' :: (natDecDigits b ++ [')']))) =
      ',' :: (natDecDigits g ++ ',' :: (natDecDigits b ++ [')'])) from by
    simp [skipSp, List.dropWhile_cons, pyIsSpace]]
  rw [show expectChar ',' (',' :: (natDecDigits g ++ ',' :: (natDecDigits b ++ [')']))) =
      some (natDecDigits g ++ ',' :: (natDecDigits b ++ [')'])) from by
    simp [expectChar]]
  simp only [Option.some_bind]
  rw [skipSp_digits g (',' :: (natDecDigits b ++ [')']))]
  rw [takeNat_canonical g ',' (by decide)]
  simp only [Option.some_bind]
  rw [show skipSp (',' :: (natDecDigits b ++ [')'])) =
      ',' :: (natDecDigits b ++ [')']) from by
    simp [skipSp, List.dropWhile_cons, pyIsSpace]]
  rw [show expectChar ',' (',' :: (natDecDigits b ++ [')'])) =
      some (natDecDigits b ++ [')']) from by
    simp [expectChar]]
  simp only [Option.some_bind]
  rw [skipSp_digits b [')']]
  rw [takeNat_canonical b ')' (by decide)]
  simp only [Option.some_bind]
  rw [show skipSp [')'] = [')'] from by simp [skipSp, List.dropWhile_cons, pyIsSpace]]
  rw [show expectChar ')' [')'] = some [] from by simp [expectChar]]
  simp only [Option.some_bind]

/-- `str.lower()` is the identity on strings without uppercase
letters. -/
theorem pyLower_fixed {l : List Char} (h : ∀ c ∈ l, Char.toLower c = c) :
    pyLower l = l := by
  unfold pyLower
  rw [List.map_congr_left h]
  simp

/-- Constructing a `Color` from its own `"rgb(r,g,b)"` string reproduces
it exactly. -/
theorem str_roundtrip (names : List Char → Option (ℤ × ℤ × ℤ)) (c : Color)
    (hv : c.valid) : Color.new names (.fromStr c.str) = .ok c := by
  obtain ⟨h1, h2, h3, h4, h5, h6⟩ := hv
  have hshape : c.str = 'r' :: 'g' :: 'b' :: '(' ::
      (natDecDigits c.red.toNat ++ ',' :: (natDecDigits c.green.toNat ++ ',' ::
        (natDecDigits c.blue.toNat ++ [')']))) := by
    unfold Color.str intDec
    rw [if_neg (not_lt.mpr h1), if_neg (not_lt.mpr h3), if_neg (not_lt.mpr h5)]
    simp [List.append_assoc]
  have hmem : ∀ ch ∈ ('r' :: 'g' :: 'b' :: '(' ::
      (natDecDigits c.red.toNat ++ ',' :: (natDecDigits c.green.toNat ++ ',' ::
        (natDecDigits c.blue.toNat ++ [')'])))),
      ch = 'r' ∨ ch = 'g' ∨ ch = 'b' ∨ ch = '(' ∨ ch = ',' ∨ ch = ')' ∨
        ∃ m, m < 10 ∧ ch = decDigitChar m := by
    intro ch hch
    rcases List.mem_cons.mp hch with rfl | hch
    · tauto
    rcases List.mem_cons.mp hch with rfl | hch
    · tauto
    rcases List.mem_cons.mp hch with rfl | hch
    · tauto
    rcases List.mem_cons.mp hch with rfl | hch
    · tauto
    rcases List.mem_append.mp hch with hd | hch
    · exact Or.inr (Or.inr (Or.inr (Or.inr (Or.inr (Or.inr
        (natDecDigits_chars _ ch hd))))))
    rcases List.mem_cons.mp hch with rfl | hch
    · tauto
    rcases List.mem_append.mp hch with hd | hch
    · exact Or.inr (Or.inr (Or.inr (Or.inr (Or.inr (Or.inr
        (natDecDigits_chars _ ch hd))))))
    rcases List.mem_cons.mp hch with rfl | hch
    · tauto
    rcases List.mem_append.mp hch with hd | hch
    · exact Or.inr (Or.inr (Or.inr (Or.inr (Or.inr (Or.inr
        (natDecDigits_chars _ ch hd))))))
    have hch' := List.mem_singleton.mp hch
    subst hch'
    tauto
  unfold Color.new
  rw [hshape]
  dsimp only
  rw [pyStrip_of_no_space (by
    intro ch hch
    rcases hmem ch hch with rfl | rfl | rfl | rfl | rfl | rfl | ⟨m, hm, rfl⟩
    · decide
    · decide
    · decide
    · decide
    · decide
    · decide
    · exact decDigit_not_space m hm)]
  rw [pyLower_fixed (by
    intro ch hch
    rcases hmem ch hch with rfl | rfl | rfl | rfl | rfl | rfl | ⟨m, hm, rfl⟩
    · decide
    · decide
    · decide
    · decide
    · decide
    · decide
    · exact decDigit_lower m hm)]
  rw [show startsWithSeq "rgb(".data ('r' :: 'g' :: 'b' :: '(' ::
      (natDecDigits c.red.toNat ++ ',' :: (natDecDigits c.green.toNat ++ ',' ::
        (natDecDigits c.blue.toNat ++ [')'])))) = true from by
    simp [startsWithSeq]]
  simp only [if_true]
  rw [parseRgb_canonical]
  rw [show ((c.red.toNat : ℤ) : ℤ) = c.red from Int.toNat_of_nonneg h1,
    show ((c.green.toNat : ℤ) : ℤ) = c.green from Int.toNat_of_nonneg h3,
    show ((c.blue.toNat : ℤ) : ℤ) = c.blue from Int.toNat_of_nonneg h5]
  rw [Color.ofRGB_ok ⟨h1, h2, h3, h4, h5, h6⟩]

/-- C8: for each in-range integer triple, constructing a `Color` from the
tuple and reading back the channels is the identity, and round-tripping
through the `"#RRGGBB"` hex encoding and through the `"rgb(r,g,b)"`
textual form each reproduce the color exactly, for every external name
table. -/
theorem claim_C8_roundtrips :
    (∀ (names : List Char → Option (ℤ × ℤ × ℤ)) (r g b : ℤ),
      0 ≤ r → r ≤ 255 → 0 ≤ g → g ≤ 255 → 0 ≤ b → b ≤ 255 →
      Color.new names (.fromTuple [r, g, b]) = .ok ⟨r, g, b⟩ ∧
      (Color.mk r g b).red = r ∧ (Color.mk r g b).green = g ∧
      (Color.mk r g b).blue = b) ∧
    (∀ (names : List Char → Option (ℤ × ℤ × ℤ)) (c : Color), c.valid →
      Color.new names (.fromStr c.html_color) = .ok c) ∧
    (∀ (names : List Char → Option (ℤ × ℤ × ℤ)) (c : Color), c.valid →
      Color.new names (.fromStr c.str) = .ok c) := by
  refine ⟨?_, html_roundtrip, str_roundtrip⟩
  intro names r g b e1 e2 e3 e4 e5 e6
  refine ⟨?_, rfl, rfl, rfl⟩
  unfold Color.new
  exact Color.ofRGB_ok ⟨e1, e2, e3, e4, e5, e6⟩

/-- C8 witness: the three round trips at the triple `(1, 2, 3)`. -/
theorem claim_C8_witness :
    Color.new (fun _ => none) (.fromTuple [1, 2, 3]) = .ok ⟨1, 2, 3⟩ ∧
    Color.new (fun _ => none) (.fromStr (Color.html_color ⟨1, 2, 3⟩)) = .ok ⟨1, 2, 3⟩ ∧
    Color.new (fun _ => none) (.fromStr (Color.str ⟨1, 2, 3⟩)) = .ok ⟨1, 2, 3⟩ :=
  ⟨(claim_C8_roundtrips.1 _ 1 2 3 (by norm_num) (by norm_num) (by norm_num)
      (by norm_num) (by norm_num) (by norm_num)).1,
    claim_C8_roundtrips.2.1 _ ⟨1, 2, 3⟩ (by decide),
    claim_C8_roundtrips.2.2 _ ⟨1, 2, 3⟩ (by decide)⟩

/-- Factory-level well-formedness: every contained dimension is
well-formed. -/
def FWF (f : Config) : Prop := ∀ d ∈ f.dimensions, DimWF d

/-- Hex digit characters are distinct. -/
theorem hexDigitChar_inj : ∀ m : ℕ, m < 16 → ∀ m' : ℕ, m' < 16 →
    hexDigitChar m = hexDigitChar m' → m = m' := by decide

/-- The `"#RRGGBB"` encoding is injective on valid colors. -/
theorem html_color_inj {c c' : Color} (hc : c.valid) (hc' : c'.valid)
    (h : c.html_color = c'.html_color) : c = c' := by
  obtain ⟨h1, h2, h3, h4, h5, h6⟩ := hc
  obtain ⟨g1, g2, g3, g4, g5, g6⟩ := hc'
  rw [Color.html_color, Color.html_color, intHex02_two h1 h2, intHex02_two h3 h4,
    intHex02_two h5 h6, intHex02_two g1 g2, intHex02_two g3 g4,
    intHex02_two g5 g6] at h
  simp only [List.cons_append, List.nil_append, List.cons.injEq, and_true] at h
  obtain ⟨e1, e2, e3, e4, e5, e6⟩ := h.2
  have q1 := hexDigitChar_inj _ (by omega) _ (by omega) e1
  have q2 := hexDigitChar_inj _ (by omega) _ (by omega) e2
  have q3 := hexDigitChar_inj _ (by omega) _ (by omega) e3
  have q4 := hexDigitChar_inj _ (by omega) _ (by omega) e4
  have q5 := hexDigitChar_inj _ (by omega) _ (by omega) e5
  have q6 := hexDigitChar_inj _ (by omega) _ (by omega) e6
  have hred : c.red = c'.red := by omega
  have hgreen : c.green = c'.green := by omega
  have hblue : c.blue = c'.blue := by omega
  cases c; cases c'
  simp_all

/-- The `(determiner, html_color)` pairs of `unload()` determine the
config list. -/
theorem configPairs_inj : ∀ (l l' : List ConfigPoint),
    (∀ cp ∈ l, cp.color.valid) → (∀ cp ∈ l', cp.color.valid) →
    l.map (fun cp => (cp.determiner, cp.color.html_color)) =
      l'.map (fun cp => (cp.determiner, cp.color.html_color)) → l = l' := by
  intro l
  induction l with
  | nil =>
    intro l' _ _ h
    cases l' with
    | nil => rfl
    | cons a b => simp at h
  | cons cp cps ih =>
    intro l' hv hv' h
    cases l' with
    | nil => simp at h
    | cons cp' cps' =>
      simp only [List.map_cons, List.cons.injEq, Prod.mk.injEq] at h
      obtain ⟨⟨hd, hh⟩, ht⟩ := h
      have hcol := html_color_inj (hv cp (by simp)) (hv' cp' (by simp)) hh
      have hcp : cp = cp' := by
        cases cp; cases cp'; simp_all
      rw [hcp, ih cps' (fun x hx => hv x (by simp [hx]))
        (fun x hx => hv' x (by simp [hx])) ht]

/-- Under well-formedness, exponent and configs determine the whole
dimension: the stored `ready`/`min`/`max`/`range` are functions of the
config list. -/
theorem dim_inj {d d' : Dimension} (hw : DimWF d) (hw' : DimWF d')
    (hexp : d.interpolation_exponent = d'.interpolation_exponent)
    (hcfg : d.configs = d'.configs) : d = d' := by
  obtain ⟨_, _, hr, hmn, hmx, hrng⟩ := hw
  obtain ⟨_, _, hr', hmn', hmx', hrng'⟩ := hw'
  cases d; cases d'
  simp_all

/-- The per-dimension `unload()` entries determine the dimension list. -/
theorem dims_inj : ∀ (l l' : List Dimension),
    (∀ d ∈ l, DimWF d) → (∀ d ∈ l', DimWF d) →
    l.map (fun d => (d.interpolation_exponent,
      d.configs.map fun cp => (cp.determiner, cp.color.html_color))) =
    l'.map (fun d => (d.interpolation_exponent,
      d.configs.map fun cp => (cp.determiner, cp.color.html_color))) →
    l = l' := by
  intro l
  induction l with
  | nil =>
    intro l' _ _ h
    cases l' with
    | nil => rfl
    | cons a b => simp at h
  | cons d ds ih =>
    intro l' hw hw' h
    cases l' with
    | nil => simp at h
    | cons d' ds' =>
      simp only [List.map_cons, List.cons.injEq, Prod.mk.injEq] at h
      obtain ⟨⟨he, hcfgs⟩, ht⟩ := h
      have hwd := hw d (by simp)
      have hwd' := hw' d' (by simp)
      have hc := configPairs_inj d.configs d'.configs hwd.2.1 hwd'.2.1 hcfgs
      rw [dim_inj hwd hwd' he hc,
        ih ds' (fun x hx => hw x (by simp [hx]))
          (fun x hx => hw' x (by simp [hx])) ht]

/-- `unload()` is injective on well-formed configurations: the
fingerprint determines everything `get_color` can observe. -/
theorem unload_inj {f g : Config} (hf : FWF f) (hg : FWF g)
    (h : ColorFactory.unload f = ColorFactory.unload g) : f = g := by
  unfold ColorFactory.unload at h
  obtain ⟨hb, hd⟩ := Prod.mk.injEq .. ▸ h
  have := dims_inj f.dimensions g.dimensions hf hg hd
  cases f; cases g
  simp_all

/-- Cache coherence: every memoized entry is the uncached result of the
configuration whose fingerprint is currently stored.  Stale entries are
allowed only while the stored fingerprint is stale too, which the
fingerprint check at the head of `get_color` detects. -/
def CacheOK (s : FactoryState) : Prop :=
  ∀ k v, (k, v) ∈ s.cache → ∀ g : Config, FWF g →
    s.chash = some (ColorFactory.unload g) → computeUncached g k = .ok v

/-- The full state invariant maintained by every API operation. -/
def FactInv (s : FactoryState) : Prop := FWF s.cfg ∧ CacheOK s

/-- A freshly initialised dimension is well-formed. -/
theorem DimWF_init (e : ℝ) : DimWF (Dimension.init e) := by
  refine ⟨?_, ?_, rfl, rfl, rfl, rfl⟩
  · simp [cpSorted, Dimension.init]
  · simp [Dimension.init]

/-- A successful `add_config` preserves dimension well-formedness. -/
theorem add_config_ok_WF {dim : Dimension} {d : ℝ} {c : Color} {u : Unit}
    (hwf : DimWF dim) (hok : (dim.add_config d c).1 = .ok u) :
    DimWF (dim.add_config d c).2 := by
  by_cases hv : c.valid
  · by_cases hd : d ∈ detList dim.configs
    · rw [add_config_dup hv hd] at hok
      simp at hok
    · exact (add_config_fresh hwf hv hd).2.1
  · have he : dim.add_config d c = (.error .invalidColor, dim) := by
      unfold Dimension.add_config
      rw [if_pos hv]
    rw [he] at hok
    simp at hok

/-- A cache hit is a cache member. -/
theorem cacheLookup_mem {k : List ℝ} {v : Color} :
    ∀ {cache : List (List ℝ × Color)}, cacheLookup k cache = some v →
    (k, v) ∈ cache := by
  intro cache
  induction cache with
  | nil => intro h; simp [cacheLookup] at h
  | cons p rest ih =>
    rcases p with ⟨k', v'⟩
    intro h
    unfold cacheLookup at h
    by_cases hk : k' = k
    · rw [if_pos hk] at h
      simp only [Option.some.injEq] at h
      subst hk
      subst h
      exact List.mem_cons_self _ _
    · rw [if_neg hk] at h
      exact List.mem_cons_of_mem _ (ih h)

/-- Every state reachable through the public API satisfies the
invariant. -/
theorem reachable_inv : ∀ {s : FactoryState}, Reachable s → FactInv s := by
  intro s hr
  induction hr with
  | init m => exact ⟨fun d hd => absurd hd (List.not_mem_nil d), fun k v hkv => by simp [ColorFactory.init] at hkv⟩
  | addDim e hr ih =>
    rename_i s'
    obtain ⟨hf, hc⟩ := ih
    unfold ColorFactory.add_dimension
    by_cases he : e < 0
    · rw [if_pos he]
      exact ⟨hf, hc⟩
    · rw [if_neg he]
      refine ⟨?_, ?_⟩
      · intro d hd
        rcases List.mem_append.mp hd with hm | hm
        · exact hf d hm
        · rw [List.mem_singleton.mp hm]
          exact DimWF_init e
      · intro k v hkv g hg hh
        exact hc k v hkv g hg hh
  | addCfg i d c hr ih =>
    rename_i s'
    obtain ⟨hf, hc⟩ := ih
    unfold ColorFactory.add_config
    cases hdi : s'.cfg.dimensions[i]? with
    | none => exact ⟨hf, hc⟩
    | some dim =>
      rcases hx : dim.add_config d c with ⟨r, dim'⟩
      cases r with
      | error e =>
        dsimp only
        rw [hx]
        exact ⟨hf, hc⟩
      | ok u =>
        dsimp only
        rw [hx]
        dsimp only
        have hwd : DimWF dim := hf dim (List.mem_iff_getElem?.mpr ⟨i, hdi⟩)
        have hwd' : DimWF dim' := by
          have h' := add_config_ok_WF hwd (by rw [hx])
          rw [hx] at h'
          exact h'
        refine ⟨?_, ?_⟩
        · intro x hxm
          rcases List.mem_or_eq_of_mem_set hxm with hm | rfl
          · exact hf x hm
          · exact hwd'
        · intro k v hkv g hg hh
          exact hc k v hkv g hg hh
  | query t hr ih =>
    rename_i s'
    obtain ⟨hf, hc⟩ := ih
    unfold ColorFactory.get_color
    dsimp only
    by_cases hfp : some (ColorFactory.unload s'.cfg) = s'.chash
    · rw [if_neg (by simpa using hfp)]
      cases hl : cacheLookup t s'.cache with
      | some v => exact ⟨hf, hc⟩
      | none =>
        cases hcc : computeUncached s'.cfg t with
        | error e => exact ⟨hf, hc⟩
        | ok v =>
          refine ⟨hf, ?_⟩
          intro k v' hkv g hg hh
          rcases List.mem_cons.mp hkv with heq | hm
          · injection heq with hek hev
            subst hek
            subst hev
            have hug : ColorFactory.unload g = ColorFactory.unload s'.cfg := by
              rw [← hfp] at hh
              injection hh with hh'
              exact hh'.symm
            rw [unload_inj hg hf hug]
            exact hcc
          · exact hc k v' hm g hg hh
    · rw [if_pos (by simpa using hfp)]
      rw [show cacheLookup t (FactoryState.mk s'.cfg []
          (some (ColorFactory.unload s'.cfg))).cache =
          none from by simp [cacheLookup]]
      dsimp only
      cases hcc : computeUncached s'.cfg t with
      | error e =>
        refine ⟨hf, ?_⟩
        intro k v hkv
        exact absurd hkv (by simp)
      | ok v =>
        refine ⟨hf, ?_⟩
        intro k v' hkv g hg hh
        rcases List.mem_cons.mp hkv with heq | hm
        · injection heq with hek hev
          subst hek
          subst hev
          have hug : ColorFactory.unload g = ColorFactory.unload s'.cfg := by
            dsimp only at hh
            injection hh with hh'
            exact hh'.symm
          rw [unload_inj hg hf hug]
          exact hcc
        · exact absurd hm (by simp)

/-- C1: the memoized-result cache is transparent — for every reachable
factory state and every query tuple, `get_color` returns exactly what the
uncached computation (per-dimension `get_color`, then `Color.blend` with
the configured method) returns on the current configuration, with the
configuration fingerprint modelled as the (injective) `unload()`
structure; in particular no cached result computed under an earlier
configuration survives a fingerprint change. -/
theorem claim_C1_cache_transparent (s : FactoryState) (hr : Reachable s)
    (t : List ℝ) :
    (ColorFactory.get_color s t).1 = computeUncached s.cfg t := by
  obtain ⟨hf, hc⟩ := reachable_inv hr
  unfold ColorFactory.get_color
  dsimp only
  by_cases hfp : some (ColorFactory.unload s.cfg) = s.chash
  · rw [if_neg (by simpa using hfp)]
    cases hl : cacheLookup t s.cache with
    | some v =>
      have hm := cacheLookup_mem hl
      have hv := hc t v hm s.cfg hf hfp.symm
      dsimp only
      exact hv.symm
    | none =>
      cases hcc : computeUncached s.cfg t with
      | ok v => rfl
      | error e => rfl
  · rw [if_pos (by simpa using hfp)]
    rw [show cacheLookup t (FactoryState.mk s.cfg []
        (some (ColorFactory.unload s.cfg))).cache = none from by simp [cacheLookup]]
    dsimp only
    cases hcc : computeUncached s.cfg t with
    | ok v => rfl
    | error e => rfl

/-- C1 witness: the fresh factory queried with the empty tuple (both
sides report `NotReady`). -/
theorem claim_C1_witness :
    Reachable (ColorFactory.init "lerp") ∧
    (ColorFactory.get_color (ColorFactory.init "lerp") []).1 =
      computeUncached (ColorFactory.init "lerp").cfg [] :=
  ⟨Reachable.init "lerp",
    claim_C1_cache_transparent _ (Reachable.init "lerp") []⟩
